import Mathlib

/-!
Position tracker (`src/services/positionTracker.js`).

A shallow embedding of the three operations of the position tracker:
`detectSwapType`, `calculateTradeAmount` and `getTokenBalance`.

Conventions of the embedding.

* A JavaScript call that may throw (or an `async` function that may reject) is a
  value of `Except JsError _`; `try { .. } catch { .. }` is a `match` on it.
* Property access on `undefined` throws a `TypeError`; objects that may be absent
  are `Option`s and the access is `JsError.typeError` on `none`.
* A number is a rational, and the results of `parseFloat` and of arithmetic live
  in `JsNum`, which adds `NaN` and the two infinities (signed zeros are not
  distinguished). The operations are embedded twice. The first embedding computes
  in exact arithmetic; it carries the properties that do not depend on the value
  of a computed number and those stated in exact arithmetic. The second, in the
  namespace `Ieee`, rounds every parsed number and every arithmetic result to the
  nearest double, as the code does; it carries the properties about computed
  values.
* `Number.prototype.toString` is not computed digit by digit: a returned string is
  either a string that was passed through (`JsString.text`) or the rendering of a
  number (`JsString.ofNumber`).
-/

namespace PositionTracker

/-! ## JavaScript numbers -/

/-- Values of the JavaScript number type, in exact arithmetic. -/
inductive JsNum where
  | nan
  | negInf
  | fin (q : ℚ)
  | posInf
  deriving DecidableEq, Repr

namespace JsNum

/-- Sign of a value that is not `NaN`: `-1`, `0` or `1`. -/
def sign : JsNum → Int
  | nan => 0
  | negInf => -1
  | fin q => if 0 < q then 1 else if q < 0 then -1 else 0
  | posInf => 1

/-- The infinity of a given non-zero sign. -/
def infOfSign (s : Int) : JsNum := if 0 < s then posInf else negInf

/-- JavaScript `x + y`. -/
def add : JsNum → JsNum → JsNum
  | nan, _ => nan
  | _, nan => nan
  | fin a, fin b => fin (a + b)
  | posInf, negInf => nan
  | negInf, posInf => nan
  | posInf, _ => posInf
  | _, posInf => posInf
  | negInf, _ => negInf
  | _, negInf => negInf

/-- JavaScript unary `-x`. -/
def neg : JsNum → JsNum
  | nan => nan
  | negInf => posInf
  | fin q => fin (-q)
  | posInf => negInf

/-- JavaScript `x - y`. -/
def sub : JsNum → JsNum → JsNum
  | nan, _ => nan
  | _, nan => nan
  | fin a, fin b => fin (a - b)
  | posInf, posInf => nan
  | negInf, negInf => nan
  | posInf, _ => posInf
  | _, negInf => posInf
  | negInf, _ => negInf
  | _, posInf => negInf

/-- JavaScript `x * y`. -/
def mul : JsNum → JsNum → JsNum
  | nan, _ => nan
  | _, nan => nan
  | fin a, fin b => fin (a * b)
  | x, y => if x.sign * y.sign = 0 then nan else infOfSign (x.sign * y.sign)

/-- JavaScript `x / y`, for a divisor that is not zero (the source only divides
behind a `> 0` guard); a zero divisor is given the sign of `+0`. -/
def div : JsNum → JsNum → JsNum
  | nan, _ => nan
  | _, nan => nan
  | fin a, fin b =>
    if b = 0 then (if a = 0 then nan else infOfSign (fin a).sign) else fin (a / b)
  | fin _, _ => fin 0
  | x, fin b => infOfSign (x.sign * (if b < 0 then -1 else 1))
  | _, _ => nan

/-- JavaScript `x > 0`. -/
def gtZero : JsNum → Bool
  | fin q => decide (0 < q)
  | posInf => true
  | _ => false

/-- JavaScript `Math.max(0, x)`. -/
def max0 : JsNum → JsNum
  | nan => nan
  | negInf => fin 0
  | fin q => fin (max 0 q)
  | posInf => posInf

/-- The value is a number (not `NaN`) that is greater than or equal to zero. -/
def isNonNeg : JsNum → Bool
  | fin q => decide (0 ≤ q)
  | posInf => true
  | _ => false

/-- The value is a number below zero. -/
def isNegative : JsNum → Bool
  | fin q => decide (q < 0)
  | negInf => true
  | _ => false

/-- The value is a finite number. -/
def isFinite : JsNum → Bool
  | fin _ => true
  | _ => false

end JsNum

/-! ## `parseFloat` -/

/-- The `StrWhiteSpaceChar` code points that `parseFloat` skips at the start. -/
def isStrWhiteSpace (c : Char) : Bool :=
  let n := c.toNat
  n = 0x9 || n = 0xA || n = 0xB || n = 0xC || n = 0xD || n = 0x20 || n = 0xA0
    || n = 0x1680 || (0x2000 ≤ n && n ≤ 0x200A) || n = 0x2028 || n = 0x2029
    || n = 0x202F || n = 0x205F || n = 0x3000 || n = 0xFEFF

/-- Value of a decimal digit character. -/
def digitVal (c : Char) : Option Nat :=
  if 48 ≤ c.toNat ∧ c.toNat ≤ 57 then some (c.toNat - 48) else none

/-- Reads the longest run of decimal digits: the number read so far, how many
digits were read, and the rest of the input. -/
def takeDigits : Nat → Nat → List Char → Nat × Nat × List Char
  | acc, n, [] => (acc, n, [])
  | acc, n, c :: cs =>
    match digitVal c with
    | some d => takeDigits (10 * acc + d) (n + 1) cs
    | none => (acc, n, c :: cs)

/-- The exponent part `[eE][+-]?digits` when it is present in full, else `0`. -/
def takeExponent : List Char → Int
  | [] => 0
  | c :: cs =>
    if c = 'e' ∨ c = 'E' then
      match cs with
      | '-' :: ds =>
        match takeDigits 0 0 ds with
        | (e, n, _) => if n = 0 then 0 else -(e : Int)
      | '+' :: ds =>
        match takeDigits 0 0 ds with
        | (e, n, _) => if n = 0 then 0 else (e : Int)
      | ds =>
        match takeDigits 0 0 ds with
        | (e, n, _) => if n = 0 then 0 else (e : Int)
    else 0

/-- The rational `m * 10 ^ e`. -/
def scale10 (m : Nat) (e : Int) : ℚ :=
  if 0 ≤ e then (m : ℚ) * (10 : ℚ) ^ e.toNat else (m : ℚ) / (10 : ℚ) ^ (-e).toNat

/-- The unsigned part of a `StrDecimalLiteral`: `Infinity`, or digits with an
optional fraction and exponent; `NaN` when no prefix of the input is one. -/
def parseUnsigned (cs : List Char) : JsNum :=
  if "Infinity".toList.isPrefixOf cs then JsNum.posInf
  else
    match takeDigits 0 0 cs with
    | (i, ni, rest) =>
      match rest with
      | '.' :: rest2 =>
        match takeDigits i 0 rest2 with
        | (m, nf, rest3) =>
          if ni + nf = 0 then JsNum.nan
          else JsNum.fin (scale10 m (takeExponent rest3 - (nf : Int)))
      | _ =>
        if ni = 0 then JsNum.nan else JsNum.fin (scale10 i (takeExponent rest))

/-- JavaScript `parseFloat` on a string: leading white space is skipped, the
longest prefix that is a decimal literal is read, anything else gives `NaN`. -/
def parseFloat (s : String) : JsNum :=
  match s.toList.dropWhile isStrWhiteSpace with
  | '-' :: cs => (parseUnsigned cs).neg
  | '+' :: cs => parseUnsigned cs
  | cs => parseUnsigned cs

/-- A string produced by the code: one passed through unchanged, or the result of
`toString()` on a number. -/
inductive JsString where
  | text (s : String)
  | ofNumber (x : JsNum)
  deriving DecidableEq, Repr

/-- The number a returned string denotes (`parseFloat` of it). -/
def JsString.value : JsString → JsNum
  | .text s => parseFloat s
  | .ofNumber x => x

/-! ## Data model -/

/-- Errors a JavaScript computation can raise. -/
inductive JsError where
  | typeError
  | storeError
  deriving DecidableEq, Repr

/-- Identifier of a stored record (`_id`). -/
abbrev ObjectId := Nat

/-- One leg of a swap: `address`, `symbol`, `amount` (a decimal string). -/
structure Token where
  address : String
  symbol : String
  amount : String
  deriving DecidableEq, Repr

/-- The swap passed to the operations (the data observed for a wallet). -/
structure SwapData where
  tokenIn : Option Token
  tokenOut : Option Token
  usdValue : Option ℚ
  deriving DecidableEq, Repr

/-- Modelled from the spec: the schema of the `Swap` collection
(`src/db/models/swaps.js`, required by the source but not among its files), with
the fields of the swap record of section 3 that the position tracker reads;
numeric fields are rationals and may be absent, the two legs may be absent. -/
structure SwapRecord where
  _id : ObjectId
  sourceWallet : String
  sourceChain : String
  sourceTimestamp : Int
  tokenIn : Option Token
  tokenOut : Option Token
  usdValue : Option ℚ
  swapType : String
  myPositionValue : Option ℚ
  processed : Bool
  statusCode : String
  deriving DecidableEq, Repr

/-- Result of `detectSwapType`, the second argument of `calculateTradeAmount`. -/
structure PositionInfo where
  swapType : String
  relatedEntrySwapId : Option ObjectId
  exitRatio : Option ℚ
  deriving DecidableEq, Repr

/-- Result of `calculateTradeAmount`. -/
structure TradeAmount where
  amount : JsString
  tokenAddress : String
  deriving DecidableEq, Repr

/-- Modelled from the spec: the store query interface of section 6 behind the
`Swap` model (`src/db/models/swaps.js`, not among the source files): the documents
of the collection and, when the store is unreachable, the error with which every
query rejects. -/
structure Store where
  docs : List SwapRecord
  fault : Option JsError
  deriving Repr

/-- Address of the `tokenOut` leg as a query sees it (`none` when absent). -/
def SwapRecord.tokenOutAddress (r : SwapRecord) : Option String :=
  r.tokenOut.map Token.address

/-- Address of the `tokenIn` leg as a query sees it (`none` when absent). -/
def SwapRecord.tokenInAddress (r : SwapRecord) : Option String :=
  r.tokenIn.map Token.address

/-- Runs `Swap.find(filter)`: the matching documents, or the store's error. -/
def Store.find (db : Store) (filter : SwapRecord → Bool) : Except JsError (List SwapRecord) :=
  match db.fault with
  | some e => .error e
  | none => .ok (db.docs.filter filter)

/-- Runs `Swap.findById(id)`: the document with that `_id`, `none` (JavaScript
`null`) when there is none or the id is `null`, or the store's error. -/
def Store.findById (db : Store) (id : Option ObjectId) : Except JsError (Option SwapRecord) :=
  match db.fault with
  | some e => .error e
  | none =>
    match id with
    | none => .ok none
    | some i => .ok (db.docs.find? (fun r => r._id == i))

/-- Order of `.sort({ sourceTimestamp: -1 })`: most recent first. -/
def newerFirst (a b : SwapRecord) : Prop := b.sourceTimestamp ≤ a.sourceTimestamp

instance : DecidableRel newerFirst := fun a b =>
  inferInstanceAs (Decidable (b.sourceTimestamp ≤ a.sourceTimestamp))

/-- Order of `.sort({ sourceTimestamp: 1 })`: oldest first. -/
def olderFirst (a b : SwapRecord) : Prop := a.sourceTimestamp ≤ b.sourceTimestamp

instance : DecidableRel olderFirst := fun a b =>
  inferInstanceAs (Decidable (a.sourceTimestamp ≤ b.sourceTimestamp))

instance : IsTotal SwapRecord newerFirst :=
  ⟨fun a b => le_total b.sourceTimestamp a.sourceTimestamp⟩

instance : IsTrans SwapRecord newerFirst :=
  ⟨fun _ _ _ hab hbc => le_trans hbc hab⟩

instance : IsTotal SwapRecord olderFirst :=
  ⟨fun a b => le_total a.sourceTimestamp b.sourceTimestamp⟩

instance : IsTrans SwapRecord olderFirst :=
  ⟨fun _ _ _ hab hbc => le_trans hab hbc⟩

/-! ## `detectSwapType` -/

/-- The filter of the query in `detectSwapType` (source lines 21-27). -/
def entryFilter (walletAddress : String) (tokenAddress : String) (r : SwapRecord) : Bool :=
  r.sourceWallet == walletAddress
    && r.sourceChain == "solana"
    && r.swapType == "entry"
    && r.tokenOutAddress == some tokenAddress
    && r.processed == true
    && (r.statusCode == "completed" || r.statusCode == "submitted")

/-- The classification returned when there is no previous entry, and by the
`catch` block. -/
def entryResult : PositionInfo :=
  { swapType := "entry", relatedEntrySwapId := none, exitRatio := none }

/-- The exit ratio of source lines 43-49, from the two `usdValue` fields. -/
def exitRatioOf (entryUsd exitUsd : Option ℚ) : ℚ :=
  let entryUsdValue := entryUsd.getD 0
  let exitUsdValue := exitUsd.getD 0
  if 0 < entryUsdValue then exitUsdValue / entryUsdValue else 1

/-- Body of the `try` block of `detectSwapType` (source lines 17-55). -/
def detectSwapTypeBody (db : Store) (swap : Option SwapData) (walletAddress : String) :
    Except JsError PositionInfo :=
  match swap with
  | none => .error .typeError
  | some swap =>
    match swap.tokenIn with
    | none => .error .typeError
    | some tokenBeingSold =>
      match db.find (entryFilter walletAddress tokenBeingSold.address) with
      | .error e => .error e
      | .ok found =>
        match found.insertionSort newerFirst with
        | [] => .ok entryResult
        | relatedEntry :: _ =>
          .ok { swapType := "exit"
                relatedEntrySwapId := some relatedEntry._id
                exitRatio := some (exitRatioOf relatedEntry.usdValue swap.usdValue) }

/-- The function `detectSwapType(swap, walletAddress)`: the `try` body, and the
default classification when it throws (source lines 57-65). -/
def detectSwapType (db : Store) (swap : Option SwapData) (walletAddress : String) :
    Except JsError PositionInfo :=
  match detectSwapTypeBody db swap walletAddress with
  | .ok r => .ok r
  | .error _ => .ok entryResult

/-! ## `calculateTradeAmount` -/

/-- The configured amount `process.env.SOLANA_FIXED_ENTRY_AMOUNT || "0.07"`
(source line 75); an unset or empty variable is falsy. -/
def fixedSolAmount (env : Option String) : String :=
  match env with
  | none => "0.07"
  | some s => if s = "" then "0.07" else s

/-- Address that identifies the native asset (source line 82). -/
def nativeAddress : String := "So11111111111111111111111111111111111111112"

/-- The object `{ amount: swap.tokenIn.amount, tokenAddress: swap.tokenIn.address }`
of source lines 104-107, 115-118 and 133-136; it throws when `swap` or
`swap.tokenIn` is absent. -/
def originalAmount (swap : Option SwapData) : Except JsError TradeAmount :=
  match swap with
  | none => .error .typeError
  | some swap =>
    match swap.tokenIn with
    | none => .error .typeError
    | some tokenIn => .ok { amount := .text tokenIn.amount, tokenAddress := tokenIn.address }

/-- The value `relatedEntry.myPositionValue || fixedSolAmount` passed through
`parseFloat` (source line 122): an absent or zero field is falsy. -/
def positionValueOf (myPositionValue : Option ℚ) (fixed : String) : JsNum :=
  match myPositionValue with
  | none => parseFloat fixed
  | some v => if v = 0 then parseFloat fixed else JsNum.fin v

/-- The value `positionInfo.exitRatio || 1` (source line 123): an absent or zero
ratio is falsy. -/
def ratioOrOne (exitRatio : Option ℚ) : ℚ :=
  match exitRatio with
  | none => 1
  | some r => if r = 0 then 1 else r

/-- The entry branch of `calculateTradeAmount` (source lines 82-108). -/
def entryAmount (fixed : String) (swap : Option SwapData) : Except JsError TradeAmount :=
  match swap with
  | none => .error .typeError
  | some swap =>
    match swap.tokenIn with
    | none => .error .typeError
    | some tokenIn =>
      if tokenIn.symbol = "SOL" ∨ tokenIn.address = nativeAddress then
        .ok { amount := .text fixed, tokenAddress := tokenIn.address }
      else
        match swap.tokenOut with
        | none => .error .typeError
        | some tokenOut =>
          let originalSolAmount := parseFloat tokenOut.amount
          let originalTokenAmount := parseFloat tokenIn.amount
          if originalSolAmount.gtZero then
            let tokenPerSol := originalTokenAmount.div originalSolAmount
            let calculatedTokenAmount := (parseFloat fixed).mul tokenPerSol
            .ok { amount := .ofNumber calculatedTokenAmount, tokenAddress := tokenIn.address }
          else
            .ok { amount := .text tokenIn.amount, tokenAddress := tokenIn.address }

/-- Body of the `try` block of the exit branch (source lines 112-128). -/
def exitAmountBody (fixed : String) (db : Store) (swap : Option SwapData)
    (positionInfo : PositionInfo) : Except JsError TradeAmount :=
  match db.findById positionInfo.relatedEntrySwapId with
  | .error e => .error e
  | .ok none => originalAmount swap
  | .ok (some relatedEntry) =>
    let myPositionValue := positionValueOf relatedEntry.myPositionValue fixed
    let exitAmount := myPositionValue.mul (JsNum.fin (ratioOrOne positionInfo.exitRatio))
    match swap with
    | none => .error .typeError
    | some swap =>
      match swap.tokenIn with
      | none => .error .typeError
      | some tokenIn => .ok { amount := .ofNumber exitAmount, tokenAddress := tokenIn.address }

/-- The function `calculateTradeAmount(swap, positionInfo)`; `env` is the value of
the environment variable `SOLANA_FIXED_ENTRY_AMOUNT`. -/
def calculateTradeAmount (env : Option String) (db : Store) (swap : Option SwapData)
    (positionInfo : Option PositionInfo) : Except JsError TradeAmount :=
  let fixedSolAmount := fixedSolAmount env
  match positionInfo with
  | none => .error .typeError
  | some positionInfo =>
    if positionInfo.swapType = "entry" then
      entryAmount fixedSolAmount swap
    else
      match exitAmountBody fixedSolAmount db swap positionInfo with
      | .ok r => .ok r
      | .error _ => originalAmount swap

/-! ## `getTokenBalance` -/

/-- The filter of the query in `getTokenBalance` (source lines 151-157). -/
def balanceFilter (walletAddress : String) (tokenAddress : String) (r : SwapRecord) : Bool :=
  r.sourceWallet == walletAddress
    && r.sourceChain == "solana"
    && (r.tokenInAddress == some tokenAddress || r.tokenOutAddress == some tokenAddress)

/-- One iteration of the loop of `getTokenBalance` (source lines 163-169). -/
def balanceStep (tokenAddress : String) (balance : JsNum) (swap : SwapRecord) :
    Except JsError JsNum :=
  match swap.tokenOut with
  | none => .error .typeError
  | some tokenOut =>
    if tokenOut.address = tokenAddress then
      .ok (balance.add (parseFloat tokenOut.amount))
    else
      match swap.tokenIn with
      | none => .error .typeError
      | some tokenIn =>
        if tokenIn.address = tokenAddress then
          .ok (balance.sub (parseFloat tokenIn.amount))
        else .ok balance

/-- The loop of `getTokenBalance` over the records, from a starting balance. -/
def replay (tokenAddress : String) : JsNum → List SwapRecord → Except JsError JsNum
  | balance, [] => .ok balance
  | balance, swap :: rest =>
    match balanceStep tokenAddress balance swap with
    | .error e => .error e
    | .ok balance2 => replay tokenAddress balance2 rest

/-- Body of the `try` block of `getTokenBalance` (source lines 151-172). -/
def getTokenBalanceBody (db : Store) (walletAddress tokenAddress : String) :
    Except JsError JsString :=
  match db.find (balanceFilter walletAddress tokenAddress) with
  | .error e => .error e
  | .ok swaps =>
    match replay tokenAddress (JsNum.fin 0) (swaps.insertionSort olderFirst) with
    | .error e => .error e
    | .ok balance => .ok (.ofNumber balance.max0)

/-- The function `getTokenBalance(walletAddress, tokenAddress)`: the `try` body,
and `"0"` when it throws (source lines 173-176). -/
def getTokenBalance (db : Store) (walletAddress tokenAddress : String) :
    Except JsError JsString :=
  match getTokenBalanceBody db walletAddress tokenAddress with
  | .ok s => .ok s
  | .error _ => .ok (.text "0")

/-! ## Scenarios

Concrete stores and swaps on which the statements below are evaluated. -/

/-- The token `TOKEN` bought in the scenarios, with an amount. -/
def tokenLeg (amount : String) : Token :=
  { address := "TokenMint111", symbol := "TOKEN", amount := amount }

/-- The native asset leg, with an amount. -/
def solLeg (amount : String) : Token :=
  { address := nativeAddress, symbol := "SOL", amount := amount }

/-- An entry record of wallet `"W"`: `amountIn` SOL for `amountOut` TOKEN. -/
def entryRecord (id : ObjectId) (time : Int) (amountIn amountOut : String)
    (usd : Option ℚ) : SwapRecord :=
  { _id := id, sourceWallet := "W", sourceChain := "solana", sourceTimestamp := time
    tokenIn := some (solLeg amountIn), tokenOut := some (tokenLeg amountOut)
    usdValue := usd, swapType := "entry", myPositionValue := none
    processed := true, statusCode := "completed" }

/-- The store of the first scenario of section 8: one entry, 0.07 SOL for 700
TOKEN, worth 10 USD. -/
def oneEntryStore : Store :=
  { docs := [entryRecord 1 100 "0.07" "700" (some 10)], fault := none }

/-- The swap of the first scenario of section 8: 350 TOKEN sold for SOL, worth 6 USD. -/
def sellHalf : SwapData :=
  { tokenIn := some (tokenLeg "350"), tokenOut := some (solLeg "0.04"), usdValue := some 6 }

/-- A store with an older entry (worth 10 USD) and a newer one (worth 30 USD). -/
def twoEntryStore : Store :=
  { docs := [entryRecord 1 100 "0.07" "700" (some 10), entryRecord 2 200 "0.21" "900" (some 30)]
    fault := none }

/-- The swap of the second scenario of section 8: SOL sold for TOKEN. -/
def buyWithSol : SwapData :=
  { tokenIn := some (solLeg "1.5"), tokenOut := some (tokenLeg "15000"), usdValue := some 200 }

/-- A store whose entry record (id 1) has a recorded position value of `0`. -/
def zeroPositionStore : Store :=
  { docs := [{ entryRecord 1 100 "0.07" "700" (some 10) with myPositionValue := some 0 }]
    fault := none }

/-- A store that rejects every query. -/
def unreachableStore : Store :=
  { docs := [entryRecord 1 100 "0.07" "700" (some 10)], fault := some .storeError }

/-- An exit classification that refers to record 1 with the given ratio. -/
def exitOfFirst (ratio : Option ℚ) : PositionInfo :=
  { swapType := "exit", relatedEntrySwapId := some 1, exitRatio := ratio }

/-- A swap that sells 350 TOKEN for SOL and reports a SOL amount of `0`. -/
def sellForNothing : SwapData :=
  { tokenIn := some (tokenLeg "350"), tokenOut := some (solLeg "0"), usdValue := none }

/-- A swap whose `tokenIn` is absent. -/
def swapWithoutTokenIn : SwapData :=
  { tokenIn := none, tokenOut := some (solLeg "0.04"), usdValue := some 6 }

/-- A swap that sells TOKEN and whose `tokenOut` is absent. -/
def swapWithoutTokenOut : SwapData :=
  { tokenIn := some (tokenLeg "350"), tokenOut := none, usdValue := some 6 }

/-! ## Balance, as sums over the stored records -/

/-- Sum of a list of numbers, with JavaScript addition. -/
def JsNum.sum : List JsNum → JsNum
  | [] => JsNum.fin 0
  | x :: xs => x.add (JsNum.sum xs)

/-- The number `parseFloat(record.tokenOut.amount)`; not a number when the leg is absent. -/
def SwapRecord.amountOut (r : SwapRecord) : JsNum :=
  match r.tokenOut with
  | some t => parseFloat t.amount
  | none => JsNum.nan

/-- The number `parseFloat(record.tokenIn.amount)`; not a number when the leg is absent. -/
def SwapRecord.amountIn (r : SwapRecord) : JsNum :=
  match r.tokenIn with
  | some t => parseFloat t.amount
  | none => JsNum.nan

/-- A record of the wallet (on the chain the tracker queries) whose
`tokenOut.address` is the token: an acquisition. -/
def acquires (walletAddress tokenAddress : String) (r : SwapRecord) : Bool :=
  r.sourceWallet == walletAddress && r.sourceChain == "solana"
    && r.tokenOutAddress == some tokenAddress

/-- A record of the wallet (on the chain the tracker queries) whose
`tokenIn.address` is the token: a disposal. -/
def disposes (walletAddress tokenAddress : String) (r : SwapRecord) : Bool :=
  r.sourceWallet == walletAddress && r.sourceChain == "solana"
    && r.tokenInAddress == some tokenAddress

/-- The sum `A` of C9: `tokenOut.amount` over the wallet's records whose
`tokenOut.address` is the token. -/
def acquiredAmount (walletAddress tokenAddress : String) (docs : List SwapRecord) : JsNum :=
  JsNum.sum ((docs.filter (acquires walletAddress tokenAddress)).map SwapRecord.amountOut)

/-- The sum `D` of C9: `tokenIn.amount` over the wallet's records whose
`tokenIn.address` is the token. -/
def disposedAmount (walletAddress tokenAddress : String) (docs : List SwapRecord) : JsNum :=
  JsNum.sum ((docs.filter (disposes walletAddress tokenAddress)).map SwapRecord.amountIn)

/-- The balance as the statement of C9 words it: the rendering of `max(0, A - D)`. -/
def claimedBalance (walletAddress tokenAddress : String) (docs : List SwapRecord) : JsString :=
  .ofNumber ((acquiredAmount walletAddress tokenAddress docs).sub
    (disposedAmount walletAddress tokenAddress docs)).max0

/-- The sum of `tokenIn.amount` over the wallet's records whose `tokenIn.address`
is the token and whose `tokenOut.address` is not. -/
def disposedOnlyAmount (walletAddress tokenAddress : String) (docs : List SwapRecord) : JsNum :=
  JsNum.sum ((docs.filter
    (fun r => disposes walletAddress tokenAddress r && !acquires walletAddress tokenAddress r)).map
    SwapRecord.amountIn)

/-- What one record adds to the balance of the token in the loop of
`getTokenBalance`, for a record that carries the legs the loop reads. -/
def contribution (tokenAddress : String) (r : SwapRecord) : JsNum :=
  if r.tokenOutAddress = some tokenAddress then r.amountOut
  else if r.tokenInAddress = some tokenAddress then r.amountIn.neg
  else JsNum.fin 0

/-- A record of wallet `"W"` with the two given legs, of type `exit`. -/
def plainRecord (id : ObjectId) (time : Int) (tokenIn tokenOut : Option Token) : SwapRecord :=
  { _id := id, sourceWallet := "W", sourceChain := "solana", sourceTimestamp := time
    tokenIn := tokenIn, tokenOut := tokenOut
    usdValue := none, swapType := "exit", myPositionValue := none
    processed := true, statusCode := "completed" }

/-- A store with one record that has the token on both legs: 3 in, 5 out. -/
def selfSwapStore : Store :=
  { docs := [plainRecord 1 100 (some (tokenLeg "3")) (some (tokenLeg "5"))], fault := none }

/-- A store with an acquisition of 5 and a later disposal of 3 whose record has
no `tokenOut`. -/
def missingLegStore : Store :=
  { docs := [plainRecord 1 100 (some (solLeg "0.07")) (some (tokenLeg "5")),
             plainRecord 2 200 (some (tokenLeg "3")) none]
    fault := none }

/-- A store with an acquisition of 5 followed by a disposal of 350. -/
def oversoldStore : Store :=
  { docs := [plainRecord 1 100 (some (solLeg "0.07")) (some (tokenLeg "5")),
             plainRecord 2 200 (some (tokenLeg "350")) (some (solLeg "0.04"))]
    fault := none }

/-- A store with an acquisition of 5 followed by a disposal of 3. -/
def heldStore : Store :=
  { docs := [plainRecord 1 100 (some (solLeg "0.07")) (some (tokenLeg "5")),
             plainRecord 2 200 (some (tokenLeg "3")) (some (solLeg "0.04"))]
    fault := none }

/-- A store whose only entry has no recorded `usdValue`. -/
def unpricedEntryStore : Store :=
  { docs := [entryRecord 1 100 "0.07" "700" none], fault := none }

/-- A store whose most recent entry (id 2) is worth `0` and whose older entry
(id 1) is worth 10. -/
def zeroValueEntryStore : Store :=
  { docs := [entryRecord 1 100 "0.07" "700" (some 10), entryRecord 2 200 "0.07" "700" (some 0)]
    fault := none }

/-- The `_id` fields of the documents are pairwise distinct, as the store
guarantees for its primary key. -/
def uniqueIds (docs : List SwapRecord) : Prop := (docs.map SwapRecord._id).Nodup

instance (docs : List SwapRecord) : Decidable (uniqueIds docs) :=
  inferInstanceAs (Decidable (docs.map SwapRecord._id).Nodup)

/-- An exit classification whose related entry id (99) is not in the scenario
stores. -/
def exitOfUnknown : PositionInfo :=
  { swapType := "exit", relatedEntrySwapId := some 99, exitRatio := some 1 }

/-- An exit classification with a `null` related entry id. -/
def exitOfNothing : PositionInfo :=
  { swapType := "exit", relatedEntrySwapId := none, exitRatio := some 1 }

/-- The iteration of the loop of `getTokenBalance` throws on this record: its
`tokenOut` is absent, or `tokenOut.address` is another token and `tokenIn` is absent. -/
def stepFails (tokenAddress : String) (r : SwapRecord) : Bool :=
  match r.tokenOut with
  | none => true
  | some tokenOut => if tokenOut.address = tokenAddress then false else r.tokenIn.isNone

/-- JavaScript `x <= y`. -/
def JsNum.le : JsNum → JsNum → Bool
  | .nan, _ => false
  | _, .nan => false
  | .negInf, _ => true
  | _, .posInf => true
  | .fin a, .fin b => decide (a ≤ b)
  | .posInf, _ => false
  | _, .negInf => false

/-- A pure-acquisition history for the wallet and token: every record that the
query of `getTokenBalance` matches has `tokenOut.address` equal to the token and a
`tokenOut.amount` that is a number greater than or equal to zero. -/
def pureAcquisitions (walletAddress tokenAddress : String) (docs : List SwapRecord) : Bool :=
  docs.all (fun r => !balanceFilter walletAddress tokenAddress r
    || (acquires walletAddress tokenAddress r && r.amountOut.isNonNeg))

/-- The record with its `sourceTimestamp` set to `0`. -/
def withoutTime (r : SwapRecord) : SwapRecord := { r with sourceTimestamp := 0 }

/-- A store with one record of the token whose `tokenIn` is absent: 5 TOKEN out. -/
def halfRecordStore : Store :=
  { docs := [plainRecord 1 100 none (some (tokenLeg "5"))], fault := none }

/-- A history with one acquisition of 5 TOKEN. -/
def firstBuy : List SwapRecord :=
  [plainRecord 1 100 (some (solLeg "0.07")) (some (tokenLeg "5"))]

/-- One more acquisition, of 3 TOKEN. -/
def secondBuy : SwapRecord :=
  plainRecord 2 200 (some (solLeg "0.04")) (some (tokenLeg "3"))

/-- A history that sells 350 TOKEN first and buys 5 TOKEN later. -/
def earlySale : List SwapRecord :=
  [plainRecord 1 100 (some (tokenLeg "350")) (some (solLeg "0.04")),
   plainRecord 2 200 (some (solLeg "0.07")) (some (tokenLeg "5"))]

/-- The same two records as `earlySale`, stored in the other order and with the
purchase dated before the sale. -/
def lateSale : List SwapRecord :=
  [plainRecord 2 50 (some (solLeg "0.07")) (some (tokenLeg "5")),
   plainRecord 1 100 (some (tokenLeg "350")) (some (solLeg "0.04"))]

/-- The swap of the first scenario with a `usdValue` of `0`. -/
def sellForNoValue : SwapData :=
  { tokenIn := some (tokenLeg "350"), tokenOut := some (solLeg "0.04"), usdValue := some 0 }

/-! ## The operations in IEEE 754 double arithmetic

The definitions above compute in exact arithmetic. The ones of this section
compute as the code does, in binary64 with rounding to nearest, ties to even: a
number is the rational value of a double, every arithmetic result is rounded, and
a number read from a record or from a decimal string is rounded to the nearest
double. Signed zeros are not distinguished. -/

instance instDecidableEqExcept {ε α : Type} [DecidableEq ε] [DecidableEq α] :
    DecidableEq (Except ε α)
  | .ok a, .ok b =>
    if h : a = b then isTrue (by rw [h]) else isFalse (fun h2 => h (Except.ok.inj h2))
  | .error a, .error b =>
    if h : a = b then isTrue (by rw [h]) else isFalse (fun h2 => h (Except.error.inj h2))
  | .ok _, .error _ => isFalse (fun h => nomatch h)
  | .error _, .ok _ => isFalse (fun h => nomatch h)

namespace Ieee

/-- The integer nearest to `n / d`, ties going to the even one (`d` positive). -/
def roundHalfEven (n d : Nat) : Nat :=
  let q := n / d
  let r := n % d
  if 2 * r < d then q else if d < 2 * r then q + 1 else if q % 2 = 0 then q else q + 1

/-- The integer part of the base 2 logarithm of `n` (for `n` positive), by
repeated halving; `fuel` bounds the number of halvings. -/
def bitLog : Nat → Nat → Nat
  | 0, _ => 0
  | fuel + 1, n => if n < 2 then 0 else bitLog fuel (n / 2) + 1

/-- The integer part of the base 2 logarithm of `n / d` (`n` and `d` positive). -/
def floorLog2 (n d : Nat) : Int :=
  if d ≤ n then (bitLog (n / d) (n / d) : Int)
  else -((bitLog ((d + n - 1) / n) ((d + n - 1) / n - 1) + 1 : Nat) : Int)

/-- The double nearest to a rational: 53 significant bits, exponents from -1022
(below which the spacing stays `2 ^ -1074`) to 1023 (above which the result is an
infinity). -/
def round (q : ℚ) : JsNum :=
  if q = 0 then .fin 0
  else
    let n := q.num.natAbs
    let d := q.den
    let p := max (floorLog2 n d) (-1022) - 52
    let r : ℚ :=
      if 0 ≤ p then (roundHalfEven n (d * 2 ^ p.toNat) : ℚ) * 2 ^ p.toNat
      else (roundHalfEven (n * 2 ^ (-p).toNat) d : ℚ) / 2 ^ (-p).toNat
    if (2 : ℚ) ^ 1024 ≤ r then (if 0 < q then .posInf else .negInf)
    else .fin (if 0 < q then r else -r)

/-- JavaScript `x + y` on doubles. -/
def add (x y : JsNum) : JsNum :=
  match x, y with
  | .fin a, .fin b => round (a + b)
  | _, _ => x.add y

/-- JavaScript `x - y` on doubles. -/
def sub (x y : JsNum) : JsNum :=
  match x, y with
  | .fin a, .fin b => round (a - b)
  | _, _ => x.sub y

/-- JavaScript `x * y` on doubles. -/
def mul (x y : JsNum) : JsNum :=
  match x, y with
  | .fin a, .fin b => round (a * b)
  | _, _ => x.mul y

/-- JavaScript `x / y` on doubles. -/
def div (x y : JsNum) : JsNum :=
  match x, y with
  | .fin a, .fin b => if b = 0 then x.div y else round (a / b)
  | _, _ => x.div y

/-- A number that is falsy in JavaScript: zero or `NaN`. -/
def isFalsy : JsNum → Bool
  | .nan => true
  | .fin q => decide (q = 0)
  | _ => false

/-- JavaScript `parseFloat` on a string: the double nearest to the decimal
literal that is read. -/
def parseFloat (s : String) : JsNum :=
  match PositionTracker.parseFloat s with
  | .fin q => round q
  | x => x

/-- The number a returned string denotes (`parseFloat` of it). -/
def valueOf : JsString → JsNum
  | .text s => parseFloat s
  | .ofNumber x => x

/-- The value `field || fallback` for a numeric field of a record or swap. -/
def numberOr (field : Option ℚ) (fallback : JsNum) : JsNum :=
  match field with
  | none => fallback
  | some q => if isFalsy (round q) then fallback else round q

/-- Result of `detectSwapType`, with the ratio a double. -/
structure PositionInfo where
  swapType : String
  relatedEntrySwapId : Option ObjectId
  exitRatio : Option JsNum
  deriving DecidableEq, Repr

/-- The classification returned when there is no previous entry, and by the
`catch` block. -/
def entryResult : PositionInfo :=
  { swapType := "entry", relatedEntrySwapId := none, exitRatio := none }

/-- The exit ratio of source lines 43-49. -/
def exitRatioOf (entryUsd exitUsd : Option ℚ) : JsNum :=
  let entryUsdValue := numberOr entryUsd (.fin 0)
  let exitUsdValue := numberOr exitUsd (.fin 0)
  if entryUsdValue.gtZero then div exitUsdValue entryUsdValue else .fin 1

/-- Body of the `try` block of `detectSwapType` (source lines 17-55). -/
def detectSwapTypeBody (db : Store) (swap : Option SwapData) (walletAddress : String) :
    Except JsError PositionInfo :=
  match swap with
  | none => .error .typeError
  | some swap =>
    match swap.tokenIn with
    | none => .error .typeError
    | some tokenBeingSold =>
      match db.find (entryFilter walletAddress tokenBeingSold.address) with
      | .error e => .error e
      | .ok found =>
        match found.insertionSort newerFirst with
        | [] => .ok entryResult
        | relatedEntry :: _ =>
          .ok { swapType := "exit"
                relatedEntrySwapId := some relatedEntry._id
                exitRatio := some (exitRatioOf relatedEntry.usdValue swap.usdValue) }

/-- The function `detectSwapType(swap, walletAddress)` (source lines 15-66). -/
def detectSwapType (db : Store) (swap : Option SwapData) (walletAddress : String) :
    Except JsError PositionInfo :=
  match detectSwapTypeBody db swap walletAddress with
  | .ok r => .ok r
  | .error _ => .ok entryResult

/-- The value `parseFloat(relatedEntry.myPositionValue || fixedSolAmount)` of
source line 122. -/
def positionValueOf (myPositionValue : Option ℚ) (fixed : String) : JsNum :=
  numberOr myPositionValue (parseFloat fixed)

/-- A number received as an argument, as the double it is. -/
def asDouble : JsNum → JsNum
  | .fin q => round q
  | x => x

/-- The value `positionInfo.exitRatio || 1` of source line 123. -/
def ratioOrOne (exitRatio : Option JsNum) : JsNum :=
  match exitRatio with
  | none => .fin 1
  | some r => if isFalsy (asDouble r) then .fin 1 else asDouble r

/-- The entry branch of `calculateTradeAmount` (source lines 82-108). -/
def entryAmount (fixed : String) (swap : Option SwapData) : Except JsError TradeAmount :=
  match swap with
  | none => .error .typeError
  | some swap =>
    match swap.tokenIn with
    | none => .error .typeError
    | some tokenIn =>
      if tokenIn.symbol = "SOL" ∨ tokenIn.address = nativeAddress then
        .ok { amount := .text fixed, tokenAddress := tokenIn.address }
      else
        match swap.tokenOut with
        | none => .error .typeError
        | some tokenOut =>
          let originalSolAmount := parseFloat tokenOut.amount
          let originalTokenAmount := parseFloat tokenIn.amount
          if originalSolAmount.gtZero then
            let tokenPerSol := div originalTokenAmount originalSolAmount
            let calculatedTokenAmount := mul (parseFloat fixed) tokenPerSol
            .ok { amount := .ofNumber calculatedTokenAmount, tokenAddress := tokenIn.address }
          else
            .ok { amount := .text tokenIn.amount, tokenAddress := tokenIn.address }

/-- Body of the `try` block of the exit branch (source lines 112-128). -/
def exitAmountBody (fixed : String) (db : Store) (swap : Option SwapData)
    (positionInfo : PositionInfo) : Except JsError TradeAmount :=
  match db.findById positionInfo.relatedEntrySwapId with
  | .error e => .error e
  | .ok none => originalAmount swap
  | .ok (some relatedEntry) =>
    let myPositionValue := positionValueOf relatedEntry.myPositionValue fixed
    let exitAmount := mul myPositionValue (ratioOrOne positionInfo.exitRatio)
    match swap with
    | none => .error .typeError
    | some swap =>
      match swap.tokenIn with
      | none => .error .typeError
      | some tokenIn => .ok { amount := .ofNumber exitAmount, tokenAddress := tokenIn.address }

/-- The function `calculateTradeAmount(swap, positionInfo)` (source lines 74-139);
`env` is the value of the environment variable `SOLANA_FIXED_ENTRY_AMOUNT`. -/
def calculateTradeAmount (env : Option String) (db : Store) (swap : Option SwapData)
    (positionInfo : Option PositionInfo) : Except JsError TradeAmount :=
  let fixedSolAmount := fixedSolAmount env
  match positionInfo with
  | none => .error .typeError
  | some positionInfo =>
    if positionInfo.swapType = "entry" then
      entryAmount fixedSolAmount swap
    else
      match exitAmountBody fixedSolAmount db swap positionInfo with
      | .ok r => .ok r
      | .error _ => originalAmount swap

/-- One iteration of the loop of `getTokenBalance` (source lines 163-169). -/
def balanceStep (tokenAddress : String) (balance : JsNum) (swap : SwapRecord) :
    Except JsError JsNum :=
  match swap.tokenOut with
  | none => .error .typeError
  | some tokenOut =>
    if tokenOut.address = tokenAddress then
      .ok (add balance (parseFloat tokenOut.amount))
    else
      match swap.tokenIn with
      | none => .error .typeError
      | some tokenIn =>
        if tokenIn.address = tokenAddress then
          .ok (sub balance (parseFloat tokenIn.amount))
        else .ok balance

/-- The loop of `getTokenBalance` over the records, from a starting balance. -/
def replay (tokenAddress : String) : JsNum → List SwapRecord → Except JsError JsNum
  | balance, [] => .ok balance
  | balance, swap :: rest =>
    match balanceStep tokenAddress balance swap with
    | .error e => .error e
    | .ok balance2 => replay tokenAddress balance2 rest

/-- Body of the `try` block of `getTokenBalance` (source lines 151-172). -/
def getTokenBalanceBody (db : Store) (walletAddress tokenAddress : String) :
    Except JsError JsString :=
  match db.find (balanceFilter walletAddress tokenAddress) with
  | .error e => .error e
  | .ok swaps =>
    match replay tokenAddress (JsNum.fin 0) (swaps.insertionSort olderFirst) with
    | .error e => .error e
    | .ok balance => .ok (.ofNumber balance.max0)

/-- The function `getTokenBalance(walletAddress, tokenAddress)` (source lines
147-177). -/
def getTokenBalance (db : Store) (walletAddress tokenAddress : String) :
    Except JsError JsString :=
  match getTokenBalanceBody db walletAddress tokenAddress with
  | .ok s => .ok s
  | .error _ => .ok (.text "0")

/-- The amount of a leg, when the leg is present, parses to a finite double. -/
def legFinite (leg : Option Token) : Bool :=
  match leg with
  | some t => (parseFloat t.amount).isFinite
  | none => true

/-- Every amount of every stored record parses to a finite double. -/
def finiteAmounts (docs : List SwapRecord) : Bool :=
  docs.all (fun r => legFinite r.tokenIn && legFinite r.tokenOut)

end Ieee

namespace Ieee

/-- The exit amount as the statement of C4 words it, in doubles: the entry's
`myPositionValue` whenever the field is present, else the configured amount, times
the classification's `exitRatio` whenever it is present, else times `1`. -/
def claimedExitAmount (fixed : String) (myPositionValue : Option ℚ)
    (exitRatio : Option JsNum) : JsNum :=
  let p := match myPositionValue with
    | some v => round v
    | none => parseFloat fixed
  mul p ((exitRatio.map asDouble).getD (.fin 1))

/-- The end-to-end amount as the statement of C16 words it, in doubles:
`fixedAmount * x / e`, with an absent `x` counting as `0`. -/
def claimedMirrorAmount (fixed : String) (x : Option ℚ) (e : ℚ) : JsNum :=
  div (mul (parseFloat fixed) (round (x.getD 0))) (round e)

/-- An exit classification that refers to record 1 with the given ratio. -/
def exitOfFirst (ratio : Option JsNum) : PositionInfo :=
  { swapType := "exit", relatedEntrySwapId := some 1, exitRatio := ratio }

end Ieee

namespace Ieee

/-- Sum of a list of doubles, added from left to right. -/
def sum (l : List JsNum) : JsNum := l.foldl add (.fin 0)

/-- The balance as the statement of C9 words it, computed in doubles: the
rendering of `max(0, A - D)`, with `A` and `D` summed in the order of the list. -/
def claimedBalance (walletAddress tokenAddress : String) (docs : List SwapRecord) : JsString :=
  .ofNumber (sub
    (sum ((docs.filter (acquires walletAddress tokenAddress)).map
      (fun r => match r.tokenOut with
        | some t => parseFloat t.amount
        | none => .nan)))
    (sum ((docs.filter (disposes walletAddress tokenAddress)).map
      (fun r => match r.tokenIn with
        | some t => parseFloat t.amount
        | none => .nan)))).max0

end Ieee

/-- A swap that sells 350 TOKEN and reports a SOL amount of `1e-400`, which is
below the smallest positive double. -/
def sellForDust : SwapData :=
  { tokenIn := some (tokenLeg "350"), tokenOut := some (solLeg "1e-400"), usdValue := none }

/-- A history that buys 0.1 TOKEN, then sells 0.3, then buys 0.2. -/
def roundingStore : Store :=
  { docs := [plainRecord 1 100 (some (solLeg "1")) (some (tokenLeg "0.1")),
             plainRecord 2 200 (some (tokenLeg "0.3")) (some (solLeg "1")),
             plainRecord 3 300 (some (solLeg "1")) (some (tokenLeg "0.2"))]
    fault := none }

/-- A store with one purchase whose amount is the string `"abc"`. -/
def unreadableAmountStore : Store :=
  { docs := [plainRecord 1 100 (some (solLeg "1")) (some (tokenLeg "abc"))], fault := none }

/-- A store that buys `1e400` TOKEN and then sells `1e400` TOKEN, an amount above
the largest double. -/
def overflowStore : Store :=
  { docs := [plainRecord 1 100 (some (solLeg "1")) (some (tokenLeg "1e400")),
             plainRecord 2 200 (some (tokenLeg "1e400")) (some (solLeg "1"))]
    fault := none }

/-! ## Properties of `detectSwapType` -/

/-- A query on a reachable store returns the documents that pass the filter. -/
theorem Store.find_of_reachable (db : Store) (filter : SwapRecord → Bool)
    (hq : db.fault = none) : db.find filter = .ok (db.docs.filter filter) := by
  simp [Store.find, hq]

/-- The first element of a list sorted most recent first is one of the list and
no element of the list is more recent. -/
theorem head_newerFirst (l : List SwapRecord) (e : SwapRecord) (rest : List SwapRecord)
    (h : l.insertionSort newerFirst = e :: rest) :
    e ∈ l ∧ ∀ r ∈ l, r.sourceTimestamp ≤ e.sourceTimestamp := by
  have hperm := List.perm_insertionSort newerFirst l
  have hsorted := List.sorted_insertionSort newerFirst l
  rw [h] at hperm hsorted
  refine ⟨hperm.mem_iff.mp (List.mem_cons_self e rest), fun r hr => ?_⟩
  rcases List.mem_cons.mp (hperm.mem_iff.mpr hr) with rfl | hmem
  · exact le_refl _
  · exact (List.sorted_cons.mp hsorted).1 r hmem

/-- Sorting does not turn a non-empty list into the empty one. -/
theorem insertionSort_ne_nil (l : List SwapRecord) (r : SwapRecord) (hr : r ∈ l) :
    l.insertionSort newerFirst ≠ [] := by
  intro h
  have hmem := (List.perm_insertionSort newerFirst l).mem_iff.mpr hr
  rw [h] at hmem
  exact List.not_mem_nil r hmem

/-- C2: when no stored record is eligible for the wallet and the token being
sold, the classification is exactly the entry result, whether or not the store
answers; and a record that is unprocessed, is not of type `entry` (so one of type
`exit`), is on another chain, or has a status other than `completed` and
`submitted` is not eligible, whatever its wallet and token. -/
theorem detectSwapType_no_entry (db : Store) (walletAddress : String) (swap : SwapData)
    (tokenBeingSold : Token) (hin : swap.tokenIn = some tokenBeingSold)
    (hnone : ∀ r ∈ db.docs, entryFilter walletAddress tokenBeingSold.address r = false) :
    detectSwapType db (some swap) walletAddress = .ok entryResult
    ∧ ∀ r : SwapRecord,
        (r.processed = false ∨ r.swapType ≠ "entry" ∨ r.sourceChain ≠ "solana"
          ∨ (r.statusCode ≠ "completed" ∧ r.statusCode ≠ "submitted")) →
        entryFilter walletAddress tokenBeingSold.address r = false := by
  constructor
  · have hfilter : db.docs.filter (entryFilter walletAddress tokenBeingSold.address) = [] :=
      List.filter_eq_nil_iff.mpr (fun r hr => by simp [hnone r hr])
    cases hf : db.fault with
    | some e => simp [detectSwapType, detectSwapTypeBody, hin, Store.find, hf]
    | none => simp [detectSwapType, detectSwapTypeBody, hin, Store.find, hf, hfilter]
  · intro r hr
    rcases hr with h | h | h | ⟨h1, h2⟩ <;> simp [entryFilter, *]

/-- C2, on a store whose only record for the wallet and token is an exit. -/
theorem detectSwapType_no_entry_witness :
    detectSwapType
        { docs := [{ entryRecord 1 100 "0.07" "700" (some 10) with swapType := "exit" }]
          fault := none }
        (some sellHalf) "W" = .ok entryResult
    ∧ ∀ r : SwapRecord,
        (r.processed = false ∨ r.swapType ≠ "entry" ∨ r.sourceChain ≠ "solana"
          ∨ (r.statusCode ≠ "completed" ∧ r.statusCode ≠ "submitted")) →
        entryFilter "W" (tokenLeg "350").address r = false :=
  detectSwapType_no_entry _ "W" sellHalf (tokenLeg "350") rfl (by decide)

/-- C3: when at least one eligible entry exists, the classification is an exit
whose related entry is an eligible stored record at least as recent as every
eligible record, and the ratio is computed from the `usdValue` of that record. -/
theorem detectSwapType_latest_entry (db : Store) (walletAddress : String) (swap : SwapData)
    (tokenBeingSold : Token) (hq : db.fault = none) (hin : swap.tokenIn = some tokenBeingSold)
    (hex : ∃ r ∈ db.docs, entryFilter walletAddress tokenBeingSold.address r = true) :
    ∃ e ∈ db.docs,
      entryFilter walletAddress tokenBeingSold.address e = true
      ∧ (∀ r ∈ db.docs, entryFilter walletAddress tokenBeingSold.address r = true →
          r.sourceTimestamp ≤ e.sourceTimestamp)
      ∧ detectSwapType db (some swap) walletAddress
          = .ok { swapType := "exit"
                  relatedEntrySwapId := some e._id
                  exitRatio := some (exitRatioOf e.usdValue swap.usdValue) } := by
  obtain ⟨r0, hr0, hr0e⟩ := hex
  have hr0f : r0 ∈ db.docs.filter (entryFilter walletAddress tokenBeingSold.address) :=
    List.mem_filter.mpr ⟨hr0, hr0e⟩
  cases hs : (db.docs.filter (entryFilter walletAddress tokenBeingSold.address)).insertionSort
      newerFirst with
  | nil => exact absurd hs (insertionSort_ne_nil _ r0 hr0f)
  | cons e rest =>
    obtain ⟨hmem, hmax⟩ := head_newerFirst _ e rest hs
    obtain ⟨hdocs, helig⟩ := List.mem_filter.mp hmem
    refine ⟨e, hdocs, helig, fun r hr hre => hmax r (List.mem_filter.mpr ⟨hr, hre⟩), ?_⟩
    simp [detectSwapType, detectSwapTypeBody, hin, Store.find_of_reachable db _ hq, hs]

/-- C3, on a store with an older entry worth 10 and a newer one worth 30: the
statement holds there, and the code picks the newer record (id 2) and divides the
exit value 6 by 30. -/
theorem detectSwapType_latest_entry_witness :
    (∃ e ∈ twoEntryStore.docs,
      entryFilter "W" (tokenLeg "350").address e = true
      ∧ (∀ r ∈ twoEntryStore.docs, entryFilter "W" (tokenLeg "350").address r = true →
          r.sourceTimestamp ≤ e.sourceTimestamp)
      ∧ detectSwapType twoEntryStore (some sellHalf) "W"
          = .ok { swapType := "exit"
                  relatedEntrySwapId := some e._id
                  exitRatio := some (exitRatioOf e.usdValue sellHalf.usdValue) })
    ∧ detectSwapType twoEntryStore (some sellHalf) "W"
        = .ok { swapType := "exit", relatedEntrySwapId := some 2
                exitRatio := some ((6 : ℚ) / 30) } :=
  ⟨detectSwapType_latest_entry twoEntryStore "W" sellHalf (tokenLeg "350") rfl rfl
      ⟨entryRecord 1 100 "0.07" "700" (some 10), by simp [twoEntryStore], by decide⟩,
    by rfl⟩

/-! ## Properties of `calculateTradeAmount` -/

/-- C5: for an entry whose `tokenIn` is the native asset (by symbol or by
address) the amount is the configured string unchanged, `"0.07"` when none is
configured, and the token address is `swap.tokenIn.address`; the swap's amounts,
its `usdValue` and the store play no part. -/
theorem calculateTradeAmount_native_entry (env : Option String) (db : Store) (swap : SwapData)
    (tokenIn : Token) (positionInfo : PositionInfo)
    (hin : swap.tokenIn = some tokenIn)
    (hnative : tokenIn.symbol = "SOL" ∨ tokenIn.address = nativeAddress)
    (hentry : positionInfo.swapType = "entry") :
    calculateTradeAmount env db (some swap) (some positionInfo)
      = .ok { amount := .text (fixedSolAmount env), tokenAddress := tokenIn.address }
    ∧ fixedSolAmount none = "0.07"
    ∧ ∀ configured : String, configured ≠ "" → fixedSolAmount (some configured) = configured := by
  refine ⟨?_, rfl, fun configured hc => by simp [fixedSolAmount, hc]⟩
  simp [calculateTradeAmount, hentry, entryAmount, hin, hnative]

/-- C5, on the second scenario of section 8: SOL sold for TOKEN, nothing
configured, amount `"0.07"` and the address of SOL. -/
theorem calculateTradeAmount_native_entry_witness :
    calculateTradeAmount none oneEntryStore (some buyWithSol) (some entryResult)
      = .ok { amount := .text "0.07", tokenAddress := nativeAddress } :=
  (calculateTradeAmount_native_entry none oneEntryStore buyWithSol (solLeg "1.5") entryResult
    rfl (Or.inl rfl) rfl).1

/-- The amount `"350"` parses to `350`. -/
theorem parseFloat_350 : parseFloat "350" = .fin 350 := by
  simp [parseFloat, parseUnsigned, takeDigits, digitVal, takeExponent, scale10, isStrWhiteSpace]

/-- The amount `"0"` parses to `0`. -/
theorem parseFloat_0 : parseFloat "0" = .fin 0 := by
  simp [parseFloat, parseUnsigned, takeDigits, digitVal, takeExponent, scale10, isStrWhiteSpace]

/-- C7, on four malformed calls: an entry whose swap has no `tokenIn`, an absent
classification object, a non-native entry whose swap has no `tokenOut`, and an
exit on a failing store whose swap has no `tokenIn` each raise a `TypeError`
instead of returning a pair. -/
theorem calculateTradeAmount_raises_counterexample :
    calculateTradeAmount none oneEntryStore (some swapWithoutTokenIn) (some entryResult)
      = .error .typeError
    ∧ calculateTradeAmount none oneEntryStore (some sellHalf) none = .error .typeError
    ∧ calculateTradeAmount none oneEntryStore (some swapWithoutTokenOut) (some entryResult)
      = .error .typeError
    ∧ calculateTradeAmount none unreachableStore (some swapWithoutTokenIn)
        (some (exitOfFirst (some 1))) = .error .typeError :=
  ⟨rfl, rfl, rfl, rfl⟩

/-- C7 (amended): when the classification object and `swap.tokenIn` are present
and, for an entry that does not sell the native asset, `swap.tokenOut` is present,
`calculateTradeAmount` returns a pair whatever the store does; and on the exit
path a lookup that fails or finds no record gives
`{swap.tokenIn.amount, swap.tokenIn.address}`. -/
theorem calculateTradeAmount_returns (env : Option String) (db : Store) (swap : SwapData)
    (tokenIn : Token) (positionInfo : PositionInfo)
    (hin : swap.tokenIn = some tokenIn)
    (hout : positionInfo.swapType = "entry" →
      ¬ (tokenIn.symbol = "SOL" ∨ tokenIn.address = nativeAddress) → swap.tokenOut ≠ none) :
    (∃ r, calculateTradeAmount env db (some swap) (some positionInfo) = .ok r)
    ∧ (positionInfo.swapType ≠ "entry" →
        ((∃ e, db.findById positionInfo.relatedEntrySwapId = .error e)
          ∨ db.findById positionInfo.relatedEntrySwapId = .ok none) →
        calculateTradeAmount env db (some swap) (some positionInfo)
          = .ok { amount := .text tokenIn.amount, tokenAddress := tokenIn.address }) := by
  constructor
  · by_cases hentry : positionInfo.swapType = "entry"
    · by_cases hnative : tokenIn.symbol = "SOL" ∨ tokenIn.address = nativeAddress
      · simp [calculateTradeAmount, hentry, entryAmount, hin, hnative]
      · cases ho : swap.tokenOut with
        | none => exact absurd ho (hout hentry hnative)
        | some tokenOut =>
          by_cases hpos : (parseFloat tokenOut.amount).gtZero = true <;>
            simp [calculateTradeAmount, hentry, entryAmount, hin, ho, hnative, hpos]
    · cases hf : db.findById positionInfo.relatedEntrySwapId with
      | error e => simp [calculateTradeAmount, hentry, exitAmountBody, hf, originalAmount, hin]
      | ok found =>
        cases found with
        | none => simp [calculateTradeAmount, hentry, exitAmountBody, hf, originalAmount, hin]
        | some entry => simp [calculateTradeAmount, hentry, exitAmountBody, hf, hin]
  · intro hexit hfail
    rcases hfail with ⟨e, hf⟩ | hf <;>
      simp [calculateTradeAmount, hexit, exitAmountBody, hf, originalAmount, hin]

/-- C7 (amended), on an exit against a store that rejects the lookup: the pair
is the swap's own `tokenIn` amount and address. -/
theorem calculateTradeAmount_returns_witness :
    calculateTradeAmount none unreachableStore (some sellHalf) (some (exitOfFirst (some 1)))
      = .ok { amount := .text "350", tokenAddress := "TokenMint111" } :=
  (calculateTradeAmount_returns none unreachableStore sellHalf (tokenLeg "350")
    (exitOfFirst (some 1)) rfl (fun h => absurd h (by decide))).2 (by decide)
    (Or.inl ⟨.storeError, rfl⟩)

/-- C8: `detectSwapType` returns a result for every swap, wallet and store, and
whenever its body fails (in particular when the query fails, the swap is absent
or `swap.tokenIn` is absent) the result is exactly the entry classification with
no related swap and no ratio. -/
theorem detectSwapType_never_raises (db : Store) (swap : Option SwapData)
    (walletAddress : String) :
    (∃ r, detectSwapType db swap walletAddress = .ok r)
    ∧ (∀ e, detectSwapTypeBody db swap walletAddress = .error e →
        detectSwapType db swap walletAddress = .ok entryResult)
    ∧ (db.fault ≠ none → detectSwapType db swap walletAddress = .ok entryResult)
    ∧ (swap = none → detectSwapType db swap walletAddress = .ok entryResult)
    ∧ (∀ s, swap = some s → s.tokenIn = none →
        detectSwapType db swap walletAddress = .ok entryResult) := by
  refine ⟨?_, ?_, ?_, ?_, ?_⟩
  · unfold detectSwapType
    cases detectSwapTypeBody db swap walletAddress with
    | ok r => exact ⟨r, rfl⟩
    | error e => exact ⟨entryResult, rfl⟩
  · intro e he
    simp [detectSwapType, he]
  · intro hfault
    obtain ⟨err, herr⟩ := Option.ne_none_iff_exists'.mp hfault
    cases swap with
    | none => rfl
    | some s =>
      cases hin : s.tokenIn with
      | none => simp [detectSwapType, detectSwapTypeBody, hin]
      | some t => simp [detectSwapType, detectSwapTypeBody, hin, Store.find, herr]
  · intro hs
    subst hs
    rfl
  · intro s hs hin
    subst hs
    simp [detectSwapType, detectSwapTypeBody, hin]

/-- C8, on a store that rejects the query although it holds an eligible entry:
the result is the entry classification. -/
theorem detectSwapType_never_raises_witness :
    detectSwapType unreachableStore (some sellHalf) "W" = .ok entryResult :=
  (detectSwapType_never_raises unreachableStore (some sellHalf) "W").2.2.1 (by decide)

/-! ## Arithmetic of `JsNum` -/

/-- Addition of JavaScript numbers is commutative. -/
theorem jsnum_add_comm (a b : JsNum) : a.add b = b.add a := by
  cases a <;> cases b <;> simp [JsNum.add, add_comm]

/-- Addition of JavaScript numbers is associative. -/
theorem jsnum_add_assoc (a b c : JsNum) : (a.add b).add c = a.add (b.add c) := by
  cases a <;> cases b <;> cases c <;> simp [JsNum.add, add_assoc]

/-- Adding to zero changes nothing. -/
theorem jsnum_zero_add (a : JsNum) : (JsNum.fin 0).add a = a := by
  cases a <;> simp [JsNum.add]

/-- Adding zero changes nothing. -/
theorem jsnum_add_zero (a : JsNum) : a.add (JsNum.fin 0) = a := by
  cases a <;> simp [JsNum.add]

/-- Subtracting is adding the opposite. -/
theorem jsnum_sub_eq (a b : JsNum) : a.sub b = a.add b.neg := by
  cases a <;> cases b <;> simp [JsNum.add, JsNum.sub, JsNum.neg, sub_eq_add_neg]

/-- The opposite of a sum is the sum of the opposites. -/
theorem jsnum_neg_add (a b : JsNum) : (a.add b).neg = a.neg.add b.neg := by
  cases a <;> cases b <;> simp [JsNum.add, JsNum.neg, add_comm]

/-- Two summands in front of a sum can be exchanged. -/
theorem jsnum_add_left_comm (a b c : JsNum) : a.add (b.add c) = b.add (a.add c) := by
  rw [← jsnum_add_assoc, jsnum_add_comm a b, jsnum_add_assoc]

/-- The sum of a list does not depend on the order of its elements. -/
theorem jsnum_sum_perm {l₁ l₂ : List JsNum} (h : l₁.Perm l₂) : JsNum.sum l₁ = JsNum.sum l₂ := by
  induction h with
  | nil => rfl
  | cons x _ ih => simp [JsNum.sum, ih]
  | swap x y l => simp [JsNum.sum, jsnum_add_left_comm]
  | trans _ _ ih₁ ih₂ => exact ih₁.trans ih₂

/-! ## Properties of `getTokenBalance` -/

/-- The query of `getTokenBalance` matches a record exactly when the record is an
acquisition or a disposal of the token by the wallet. -/
theorem balanceFilter_eq (walletAddress tokenAddress : String) (r : SwapRecord) :
    balanceFilter walletAddress tokenAddress r
      = (acquires walletAddress tokenAddress r || disposes walletAddress tokenAddress r) := by
  unfold balanceFilter acquires disposes
  cases (r.sourceWallet == walletAddress) <;> cases (r.sourceChain == "solana") <;>
    cases (r.tokenInAddress == some tokenAddress) <;>
    cases (r.tokenOutAddress == some tokenAddress) <;> rfl

/-- On a record that has a `tokenOut` leg and involves the token, one iteration
of the loop adds the record's contribution. -/
theorem balanceStep_eq (tokenAddress : String) (balance : JsNum) (r : SwapRecord)
    (hout : r.tokenOut ≠ none)
    (hinv : r.tokenInAddress = some tokenAddress ∨ r.tokenOutAddress = some tokenAddress) :
    balanceStep tokenAddress balance r = .ok (balance.add (contribution tokenAddress r)) := by
  cases ho : r.tokenOut with
  | none => exact absurd ho hout
  | some tout =>
    by_cases h1 : tout.address = tokenAddress
    · simp [balanceStep, ho, h1, contribution, SwapRecord.tokenOutAddress, SwapRecord.amountOut]
    · cases hi : r.tokenIn with
      | none =>
        simp [SwapRecord.tokenInAddress, SwapRecord.tokenOutAddress, hi, ho, h1] at hinv
      | some tin =>
        by_cases h2 : tin.address = tokenAddress
        · simp [balanceStep, ho, h1, hi, h2, contribution, SwapRecord.tokenOutAddress,
            SwapRecord.tokenInAddress, SwapRecord.amountIn, jsnum_sub_eq]
        · simp [SwapRecord.tokenInAddress, SwapRecord.tokenOutAddress, hi, ho, h1, h2] at hinv

/-- Replaying records that all have a `tokenOut` leg and involve the token adds up
their contributions. -/
theorem replay_eq (tokenAddress : String) (l : List SwapRecord) :
    ∀ balance : JsNum,
      (∀ r ∈ l, r.tokenOut ≠ none
        ∧ (r.tokenInAddress = some tokenAddress ∨ r.tokenOutAddress = some tokenAddress)) →
      replay tokenAddress balance l
        = .ok (balance.add (JsNum.sum (l.map (contribution tokenAddress)))) := by
  induction l with
  | nil => intro balance _; simp [replay, JsNum.sum, jsnum_add_zero]
  | cons r rest ih =>
    intro balance h
    have hr := h r (List.mem_cons_self r rest)
    have hrest : ∀ x ∈ rest, x.tokenOut ≠ none
        ∧ (x.tokenInAddress = some tokenAddress ∨ x.tokenOutAddress = some tokenAddress) :=
      fun x hx => h x (List.mem_cons_of_mem r hx)
    simp [replay, balanceStep_eq tokenAddress balance r hr.1 hr.2, ih _ hrest, JsNum.sum,
      jsnum_add_assoc]

/-- The contribution of an acquisition is its `tokenOut` amount. -/
theorem contribution_of_acquires (walletAddress tokenAddress : String) (r : SwapRecord)
    (h : acquires walletAddress tokenAddress r = true) :
    contribution tokenAddress r = r.amountOut := by
  simp [acquires] at h
  simp [contribution, h.2]

/-- The contribution of a disposal that is not an acquisition is the opposite of
its `tokenIn` amount. -/
theorem contribution_of_disposes (walletAddress tokenAddress : String) (r : SwapRecord)
    (h1 : acquires walletAddress tokenAddress r = false)
    (h2 : disposes walletAddress tokenAddress r = true) :
    contribution tokenAddress r = r.amountIn.neg := by
  simp [disposes] at h2
  simp [acquires, h2.1.1, h2.1.2] at h1
  simp [contribution, h1, h2.2]

/-- The contributions of the records matched by the query add up to the
acquired amount minus the amount disposed of by records that are not acquisitions. -/
theorem contributions_split (walletAddress tokenAddress : String) (docs : List SwapRecord) :
    JsNum.sum ((docs.filter (balanceFilter walletAddress tokenAddress)).map
        (contribution tokenAddress))
      = (acquiredAmount walletAddress tokenAddress docs).add
          (disposedOnlyAmount walletAddress tokenAddress docs).neg := by
  induction docs with
  | nil => simp [acquiredAmount, disposedOnlyAmount, JsNum.sum, JsNum.neg, JsNum.add]
  | cons r rest ih =>
    unfold acquiredAmount disposedOnlyAmount at ih ⊢
    cases hA : acquires walletAddress tokenAddress r with
    | true =>
      simp [List.filter_cons, balanceFilter_eq, hA, JsNum.sum, jsnum_add_assoc,
        contribution_of_acquires walletAddress tokenAddress r hA]
      rw [ih]
    | false =>
      cases hD : disposes walletAddress tokenAddress r with
      | true =>
        simp [List.filter_cons, balanceFilter_eq, hA, hD, JsNum.sum, jsnum_neg_add,
          contribution_of_disposes walletAddress tokenAddress r hA hD]
        rw [ih, jsnum_add_left_comm]
      | false =>
        simp [List.filter_cons, balanceFilter_eq, hA, hD]
        exact ih

/-- A record matched by the query of `getTokenBalance` involves the token. -/
theorem balanceFilter_involves (walletAddress tokenAddress : String) (r : SwapRecord)
    (h : balanceFilter walletAddress tokenAddress r = true) :
    r.tokenInAddress = some tokenAddress ∨ r.tokenOutAddress = some tokenAddress := by
  simp [balanceFilter] at h
  exact h.2

/-- The amount `"5"` parses to `5`. -/
theorem parseFloat_5 : parseFloat "5" = .fin 5 := by
  simp [parseFloat, parseUnsigned, takeDigits, digitVal, takeExponent, scale10, isStrWhiteSpace]

/-- The amount `"3"` parses to `3`. -/
theorem parseFloat_3 : parseFloat "3" = .fin 3 := by
  simp [parseFloat, parseUnsigned, takeDigits, digitVal, takeExponent, scale10, isStrWhiteSpace]

/-- C9, on three stores: for a single record with the token on both legs (3 in,
5 out) the code returns the rendering of 5 where the statement of C9 gives
`max(0, 5 - 3) = 2`; for an acquisition of 5 and a disposal of 3 whose record has
no `tokenOut` the code returns `"0"` where the statement of C9 gives 2; and for a
purchase of 0.1, a sale of 0.3 and a purchase of 0.2 the code, which adds doubles
in the order of the timestamps, returns `2.7755575615628914e-17`, where
`max(0, A - D)` is `5.551115123125783e-17` in doubles and `0` in exact arithmetic. -/
theorem getTokenBalance_claimed_counterexample :
    (getTokenBalance selfSwapStore "W" "TokenMint111" = .ok (.ofNumber (.fin 5))
      ∧ claimedBalance "W" "TokenMint111" selfSwapStore.docs = .ofNumber (.fin 2))
    ∧ (getTokenBalance missingLegStore "W" "TokenMint111" = .ok (.text "0")
      ∧ claimedBalance "W" "TokenMint111" missingLegStore.docs = .ofNumber (.fin 2))
    ∧ (Ieee.getTokenBalance roundingStore "W" "TokenMint111"
        = .ok (.ofNumber (.fin (1 / 36028797018963968)))
      ∧ Ieee.claimedBalance "W" "TokenMint111" roundingStore.docs
        = .ofNumber (.fin (1 / 18014398509481984))
      ∧ claimedBalance "W" "TokenMint111" roundingStore.docs = .ofNumber (.fin 0)) := by
  refine ⟨⟨?_, ?_⟩, ⟨rfl, ?_⟩, ⟨by decide!, by decide!, by decide!⟩⟩
  · rw [show getTokenBalance selfSwapStore "W" "TokenMint111"
        = .ok (.ofNumber ((JsNum.fin 0).add (parseFloat "5")).max0) from rfl, parseFloat_5]
    norm_num [JsNum.add, JsNum.max0]
  · rw [show claimedBalance "W" "TokenMint111" selfSwapStore.docs
        = .ofNumber (((parseFloat "5").add (.fin 0)).sub ((parseFloat "3").add (.fin 0))).max0
        from rfl, parseFloat_5, parseFloat_3]
    norm_num [JsNum.add, JsNum.sub, JsNum.max0]
  · rw [show claimedBalance "W" "TokenMint111" missingLegStore.docs
        = .ofNumber (((parseFloat "5").add (.fin 0)).sub ((parseFloat "3").add (.fin 0))).max0
        from rfl, parseFloat_5, parseFloat_3]
    norm_num [JsNum.add, JsNum.sub, JsNum.max0]

/-- C9 (amended): when the query answers and every record it matches has a
`tokenOut` leg, the balance is the rendering of `max(0, A - D)`, where `A` sums
`tokenOut.amount` over the wallet's records whose `tokenOut.address` is the token
and `D` sums `tokenIn.amount` over the wallet's records whose `tokenIn.address` is
the token and whose `tokenOut.address` is not. -/
theorem getTokenBalance_eq (db : Store) (walletAddress tokenAddress : String)
    (hq : db.fault = none)
    (hwf : ∀ r ∈ db.docs, balanceFilter walletAddress tokenAddress r = true →
      r.tokenOut ≠ none) :
    getTokenBalance db walletAddress tokenAddress
      = .ok (.ofNumber ((acquiredAmount walletAddress tokenAddress db.docs).sub
          (disposedOnlyAmount walletAddress tokenAddress db.docs)).max0) := by
  have hperm := List.perm_insertionSort olderFirst
    (db.docs.filter (balanceFilter walletAddress tokenAddress))
  have hall : ∀ r ∈ (db.docs.filter (balanceFilter walletAddress tokenAddress)).insertionSort
      olderFirst, r.tokenOut ≠ none
        ∧ (r.tokenInAddress = some tokenAddress ∨ r.tokenOutAddress = some tokenAddress) := by
    intro r hr
    obtain ⟨hdoc, hmatch⟩ := List.mem_filter.mp (hperm.mem_iff.mp hr)
    exact ⟨hwf r hdoc hmatch, balanceFilter_involves walletAddress tokenAddress r hmatch⟩
  have hsum := jsnum_sum_perm (hperm.map (contribution tokenAddress))
  simp [getTokenBalance, getTokenBalanceBody, Store.find_of_reachable db _ hq,
    replay_eq tokenAddress _ (JsNum.fin 0) hall, hsum,
    contributions_split walletAddress tokenAddress db.docs, jsnum_zero_add, jsnum_sub_eq]

/-- C9 (amended), on an acquisition of 5 followed by a disposal of 3: balance 2. -/
theorem getTokenBalance_eq_witness :
    getTokenBalance heldStore "W" "TokenMint111" = .ok (.ofNumber (.fin 2)) := by
  rw [getTokenBalance_eq heldStore "W" "TokenMint111" rfl (by decide),
    show acquiredAmount "W" "TokenMint111" heldStore.docs = (parseFloat "5").add (.fin 0)
      from rfl,
    show disposedOnlyAmount "W" "TokenMint111" heldStore.docs = (parseFloat "3").add (.fin 0)
      from rfl, parseFloat_5, parseFloat_3]
  norm_num [JsNum.add, JsNum.sub, JsNum.max0]

/-! ## Further properties of `detectSwapType` -/

/-- The ratio is `1` when the entry's `usdValue` is absent, zero or negative. -/
theorem exitRatioOf_unknown (entryUsd exitUsd : Option ℚ)
    (h : entryUsd = none ∨ ∃ u, entryUsd = some u ∧ u ≤ 0) :
    exitRatioOf entryUsd exitUsd = 1 := by
  rcases h with h | ⟨u, h, hu⟩
  · simp [exitRatioOf, h]
  · simp [exitRatioOf, h, not_lt.mpr hu]

/-- C12: when an eligible entry exists and every most recent eligible entry (the
one selected, whichever way ties are broken) has a `usdValue` that is absent, zero
or negative, the classification is an exit with ratio `1`, whatever
`swap.usdValue` is. -/
theorem detectSwapType_unknown_entry_value (db : Store) (walletAddress : String)
    (swap : SwapData) (tokenBeingSold : Token)
    (hq : db.fault = none) (hin : swap.tokenIn = some tokenBeingSold)
    (hex : ∃ r ∈ db.docs, entryFilter walletAddress tokenBeingSold.address r = true)
    (hval : ∀ e ∈ db.docs, entryFilter walletAddress tokenBeingSold.address e = true →
      (∀ r ∈ db.docs, entryFilter walletAddress tokenBeingSold.address r = true →
        r.sourceTimestamp ≤ e.sourceTimestamp) →
      e.usdValue = none ∨ ∃ u, e.usdValue = some u ∧ u ≤ 0) :
    ∃ e ∈ db.docs, entryFilter walletAddress tokenBeingSold.address e = true
      ∧ detectSwapType db (some swap) walletAddress
          = .ok { swapType := "exit", relatedEntrySwapId := some e._id, exitRatio := some 1 } := by
  obtain ⟨r0, hr0, hr0e⟩ := hex
  have hr0f : r0 ∈ db.docs.filter (entryFilter walletAddress tokenBeingSold.address) :=
    List.mem_filter.mpr ⟨hr0, hr0e⟩
  cases hs : (db.docs.filter (entryFilter walletAddress tokenBeingSold.address)).insertionSort
      newerFirst with
  | nil => exact absurd hs (insertionSort_ne_nil _ r0 hr0f)
  | cons e rest =>
    obtain ⟨hmem, hmax⟩ := head_newerFirst _ e rest hs
    obtain ⟨hdocs, helig⟩ := List.mem_filter.mp hmem
    have hone := exitRatioOf_unknown e.usdValue swap.usdValue
      (hval e hdocs helig (fun r hr hre => hmax r (List.mem_filter.mpr ⟨hr, hre⟩)))
    refine ⟨e, hdocs, helig, ?_⟩
    simp [detectSwapType, detectSwapTypeBody, hin, Store.find_of_reachable db _ hq, hs, hone]

/-- C12, on an entry without `usdValue` and on a most recent entry worth `0`
(with an older one worth 10): the swap worth 6 is an exit with ratio `1`. -/
theorem detectSwapType_unknown_entry_value_witness :
    (∃ e ∈ unpricedEntryStore.docs, entryFilter "W" (tokenLeg "350").address e = true
      ∧ detectSwapType unpricedEntryStore (some sellHalf) "W"
          = .ok { swapType := "exit", relatedEntrySwapId := some e._id, exitRatio := some 1 })
    ∧ detectSwapType zeroValueEntryStore (some sellHalf) "W"
        = .ok { swapType := "exit", relatedEntrySwapId := some 2, exitRatio := some 1 } := by
  refine ⟨detectSwapType_unknown_entry_value unpricedEntryStore "W" sellHalf (tokenLeg "350")
    rfl rfl ⟨entryRecord 1 100 "0.07" "700" none, by simp [unpricedEntryStore], by decide⟩ ?_, ?_⟩
  · intro e he _ _
    simp [unpricedEntryStore] at he
    subst he
    exact Or.inl rfl
  · rfl

/-- The fields of a record that passes the query filter of `detectSwapType`. -/
theorem entryFilter_fields (walletAddress tokenAddress : String) (e : SwapRecord)
    (h : entryFilter walletAddress tokenAddress e = true) :
    e.swapType = "entry" ∧ e.sourceWallet = walletAddress ∧ e.sourceChain = "solana"
      ∧ (∃ t, e.tokenOut = some t ∧ t.address = tokenAddress)
      ∧ e.processed = true
      ∧ (e.statusCode = "completed" ∨ e.statusCode = "submitted") := by
  simp [entryFilter, SwapRecord.tokenOutAddress] at h
  obtain ⟨⟨⟨⟨⟨hw, hc⟩, ht⟩, ho⟩, hp⟩, hs⟩ := h
  exact ⟨ht, hw, hc, ho, hp, hs⟩

/-- In a list with distinct ids, looking a member up by its id finds it. -/
theorem find_by_unique_id (docs : List SwapRecord) (e : SwapRecord) (he : e ∈ docs)
    (hn : uniqueIds docs) : docs.find? (fun r => r._id == e._id) = some e := by
  induction docs with
  | nil => exact absurd he (List.not_mem_nil e)
  | cons d rest ih =>
    unfold uniqueIds at hn ih
    simp only [List.map_cons, List.nodup_cons] at hn
    rcases List.mem_cons.mp he with rfl | hmem
    · simp
    · have hne : d._id ≠ e._id := fun heq =>
        hn.1 (heq ▸ List.mem_map_of_mem SwapRecord._id hmem)
      simp [List.find?_cons, hne, ih hmem hn.2]

/-- What a classification with a related entry tells about the call: the swap
and its `tokenIn` were present, the query answered, and the related entry is the
first of the matching records, most recent first. -/
theorem detectSwapType_related (db : Store) (swap : Option SwapData) (walletAddress : String)
    (result : PositionInfo) (id : ObjectId)
    (h : detectSwapType db swap walletAddress = .ok result)
    (hid : result.relatedEntrySwapId = some id) :
    ∃ s tok e rest, swap = some s ∧ s.tokenIn = some tok ∧ db.fault = none
      ∧ (db.docs.filter (entryFilter walletAddress tok.address)).insertionSort newerFirst
          = e :: rest
      ∧ e._id = id := by
  cases swap with
  | none =>
    simp [detectSwapType, detectSwapTypeBody] at h
    subst h
    simp [entryResult] at hid
  | some s =>
    cases hin : s.tokenIn with
    | none =>
      simp [detectSwapType, detectSwapTypeBody, hin] at h
      subst h
      simp [entryResult] at hid
    | some tok =>
      cases hf : db.fault with
      | some err =>
        simp [detectSwapType, detectSwapTypeBody, hin, Store.find, hf] at h
        subst h
        simp [entryResult] at hid
      | none =>
        cases hs : (db.docs.filter (entryFilter walletAddress tok.address)).insertionSort
            newerFirst with
        | nil =>
          simp [detectSwapType, detectSwapTypeBody, hin, Store.find, hf, hs] at h
          subst h
          simp [entryResult] at hid
        | cons e rest =>
          simp [detectSwapType, detectSwapTypeBody, hin, Store.find, hf, hs] at h
          subst h
          simp at hid
          exact ⟨s, tok, e, rest, rfl, hin, rfl, hs, hid⟩

/-- C15: whenever `detectSwapType` returns a related entry id, a stored record
with that id is of type `entry`, belongs to the wallet, is on chain `solana`, has
`tokenOut.address` equal to `swap.tokenIn.address`, is processed and has status
`completed` or `submitted`; when ids are unique it is the record that the id
refers to. -/
theorem detectSwapType_related_entry (db : Store) (swap : Option SwapData)
    (walletAddress : String) (result : PositionInfo) (id : ObjectId)
    (h : detectSwapType db swap walletAddress = .ok result)
    (hid : result.relatedEntrySwapId = some id) :
    ∃ s tok e, swap = some s ∧ s.tokenIn = some tok ∧ e ∈ db.docs ∧ e._id = id
      ∧ e.swapType = "entry" ∧ e.sourceWallet = walletAddress ∧ e.sourceChain = "solana"
      ∧ (∃ t, e.tokenOut = some t ∧ t.address = tok.address)
      ∧ e.processed = true
      ∧ (e.statusCode = "completed" ∨ e.statusCode = "submitted")
      ∧ (uniqueIds db.docs → db.findById (some id) = .ok (some e)) := by
  obtain ⟨s, tok, e, rest, hs, hin, hf, hsorted, heid⟩ :=
    detectSwapType_related db swap walletAddress result id h hid
  obtain ⟨hmem, _⟩ := head_newerFirst _ e rest hsorted
  obtain ⟨hdocs, helig⟩ := List.mem_filter.mp hmem
  obtain ⟨h1, h2, h3, h4, h5, h6⟩ := entryFilter_fields walletAddress tok.address e helig
  refine ⟨s, tok, e, hs, hin, hdocs, heid, h1, h2, h3, h4, h5, h6, fun hn => ?_⟩
  subst heid
  simp [Store.findById, hf, find_by_unique_id db.docs e hdocs hn]

/-- C15, on the store with two entries: the related entry of the exit is record 2,
an eligible entry of the wallet for the token sold, and `findById` returns it. -/
theorem detectSwapType_related_entry_witness :
    ∃ s tok e, some sellHalf = some s ∧ s.tokenIn = some tok ∧ e ∈ twoEntryStore.docs
      ∧ e._id = 2
      ∧ e.swapType = "entry" ∧ e.sourceWallet = "W" ∧ e.sourceChain = "solana"
      ∧ (∃ t, e.tokenOut = some t ∧ t.address = tok.address)
      ∧ e.processed = true
      ∧ (e.statusCode = "completed" ∨ e.statusCode = "submitted")
      ∧ (uniqueIds twoEntryStore.docs → twoEntryStore.findById (some 2) = .ok (some e)) :=
  detectSwapType_related_entry twoEntryStore (some sellHalf) "W"
    { swapType := "exit", relatedEntrySwapId := some 2
      exitRatio := some (exitRatioOf (some 30) (some 6)) } 2 rfl rfl

/-- C19: every result of `detectSwapType` is well formed. The type is `entry` or
`exit`; it is `entry` exactly when there is no related entry and exactly when there
is no ratio; and when the swap carries `tokenIn` and the query answers, it is
`exit` exactly when some stored record is eligible, and then the ratio is a number. -/
theorem detectSwapType_well_formed (db : Store) (swap : Option SwapData)
    (walletAddress : String) :
    ∃ result, detectSwapType db swap walletAddress = .ok result
      ∧ (result.swapType = "entry" ∨ result.swapType = "exit")
      ∧ (result.swapType = "entry" ↔ result.relatedEntrySwapId = none)
      ∧ (result.swapType = "entry" ↔ result.exitRatio = none)
      ∧ (∀ s tok, swap = some s → s.tokenIn = some tok → db.fault = none →
          ((result.swapType = "exit" ↔
              ∃ e ∈ db.docs, entryFilter walletAddress tok.address e = true)
            ∧ (result.swapType = "exit" → ∃ ratio, result.exitRatio = some ratio))) := by
  have hentry : (entryResult.swapType = "entry" ∨ entryResult.swapType = "exit")
      ∧ (entryResult.swapType = "entry" ↔ entryResult.relatedEntrySwapId = none)
      ∧ (entryResult.swapType = "entry" ↔ entryResult.exitRatio = none) := by
    simp [entryResult]
  cases swap with
  | none =>
    refine ⟨entryResult, rfl, hentry.1, hentry.2.1, hentry.2.2, ?_⟩
    intro s tok hs
    cases hs
  | some s =>
    cases hin : s.tokenIn with
    | none =>
      refine ⟨entryResult, by simp [detectSwapType, detectSwapTypeBody, hin],
        hentry.1, hentry.2.1, hentry.2.2, ?_⟩
      intro s2 tok hs htok
      cases hs
      rw [hin] at htok
      cases htok
    | some tok =>
      cases hf : db.fault with
      | some err =>
        refine ⟨entryResult, by simp [detectSwapType, detectSwapTypeBody, hin, Store.find, hf],
          hentry.1, hentry.2.1, hentry.2.2, ?_⟩
        intro s2 tok2 _ _ hnone
        cases hnone
      | none =>
        cases hs : (db.docs.filter (entryFilter walletAddress tok.address)).insertionSort
            newerFirst with
        | nil =>
          refine ⟨entryResult,
            by simp [detectSwapType, detectSwapTypeBody, hin, Store.find, hf, hs],
            hentry.1, hentry.2.1, hentry.2.2, ?_⟩
          intro s2 tok2 hs2 htok2 _
          cases hs2
          rw [hin] at htok2
          cases htok2
          refine ⟨⟨fun hexit => by simp [entryResult] at hexit, ?_⟩,
            fun hexit => by simp [entryResult] at hexit⟩
          rintro ⟨e, he, helig⟩
          exact absurd hs (insertionSort_ne_nil _ e (List.mem_filter.mpr ⟨he, helig⟩))
        | cons e rest =>
          refine ⟨{ swapType := "exit", relatedEntrySwapId := some e._id
                    exitRatio := some (exitRatioOf e.usdValue s.usdValue) },
            by simp [detectSwapType, detectSwapTypeBody, hin, Store.find, hf, hs],
            Or.inr rfl, by simp, by simp, ?_⟩
          intro s2 tok2 hs2 htok2 _
          cases hs2
          rw [hin] at htok2
          cases htok2
          obtain ⟨hmem, _⟩ := head_newerFirst _ e rest hs
          obtain ⟨hdocs, helig⟩ := List.mem_filter.mp hmem
          exact ⟨⟨fun _ => ⟨e, hdocs, helig⟩, fun _ => rfl⟩, fun _ => ⟨_, rfl⟩⟩

/-- C19, on the scenario of section 8: the result is an exit with a related
entry and a ratio, and an eligible record exists. -/
theorem detectSwapType_well_formed_witness :
    detectSwapType oneEntryStore (some sellHalf) "W"
      = .ok { swapType := "exit", relatedEntrySwapId := some 1
              exitRatio := some (exitRatioOf (some 10) (some 6)) }
    ∧ ∃ result, detectSwapType oneEntryStore (some sellHalf) "W" = .ok result
      ∧ (result.swapType = "exit" ↔
          ∃ e ∈ oneEntryStore.docs, entryFilter "W" (tokenLeg "350").address e = true)
      ∧ (result.swapType = "exit" → ∃ ratio, result.exitRatio = some ratio) := by
  refine ⟨rfl, ?_⟩
  obtain ⟨result, hres, _, _, _, hq⟩ :=
    detectSwapType_well_formed oneEntryStore (some sellHalf) "W"
  exact ⟨result, hres, hq sellHalf (tokenLeg "350") rfl rfl rfl⟩

/-! ## Further properties of `calculateTradeAmount` -/

/-- C13: for an exit whose swap carries `tokenIn`, when the store lookup fails,
the related entry id is `null`, or no stored record has that id, the result is
`swap.tokenIn.amount` unchanged with `swap.tokenIn.address`. -/
theorem calculateTradeAmount_exit_fallback (env : Option String) (db : Store)
    (swap : SwapData) (tokenIn : Token) (positionInfo : PositionInfo)
    (hin : swap.tokenIn = some tokenIn) (hexit : positionInfo.swapType = "exit")
    (hmiss : db.fault ≠ none ∨ positionInfo.relatedEntrySwapId = none
      ∨ ∃ id, positionInfo.relatedEntrySwapId = some id ∧ ∀ r ∈ db.docs, r._id ≠ id) :
    calculateTradeAmount env db (some swap) (some positionInfo)
      = .ok { amount := .text tokenIn.amount, tokenAddress := tokenIn.address } := by
  cases hf : db.fault with
  | some err =>
    simp [calculateTradeAmount, hexit, exitAmountBody, Store.findById, hf, originalAmount, hin]
  | none =>
    rcases hmiss with h | h | ⟨id, h, hno⟩
    · exact absurd hf h
    · simp [calculateTradeAmount, hexit, exitAmountBody, Store.findById, hf, h,
        originalAmount, hin]
    · have hfind : db.docs.find? (fun r => r._id == id) = none :=
        List.find?_eq_none.mpr (fun r hr => by simpa using hno r hr)
      simp [calculateTradeAmount, hexit, exitAmountBody, Store.findById, hf, h, hfind,
        originalAmount, hin]

/-- C13, on the swap that sells 350 TOKEN: a store that rejects the lookup, a
`null` related id and an id that no record has each give `"350"` and the address
of TOKEN. -/
theorem calculateTradeAmount_exit_fallback_witness :
    calculateTradeAmount none unreachableStore (some sellHalf) (some (exitOfFirst (some 2)))
      = .ok { amount := .text "350", tokenAddress := "TokenMint111" }
    ∧ calculateTradeAmount none oneEntryStore (some sellHalf) (some exitOfNothing)
      = .ok { amount := .text "350", tokenAddress := "TokenMint111" }
    ∧ calculateTradeAmount none oneEntryStore (some sellHalf) (some exitOfUnknown)
      = .ok { amount := .text "350", tokenAddress := "TokenMint111" } :=
  ⟨calculateTradeAmount_exit_fallback none unreachableStore sellHalf (tokenLeg "350")
      (exitOfFirst (some 2)) rfl rfl (Or.inl (by decide)),
    calculateTradeAmount_exit_fallback none oneEntryStore sellHalf (tokenLeg "350")
      exitOfNothing rfl rfl (Or.inr (Or.inl rfl)),
    calculateTradeAmount_exit_fallback none oneEntryStore sellHalf (tokenLeg "350")
      exitOfUnknown rfl rfl (Or.inr (Or.inr ⟨99, rfl, by decide⟩))⟩

/-- Whenever `calculateTradeAmount` returns, the swap and its `tokenIn` are
present and the returned address is `swap.tokenIn.address`. -/
theorem tokenAddress_of_return (env : Option String) (db : Store) (swap : Option SwapData)
    (positionInfo : Option PositionInfo) (r : TradeAmount)
    (h : calculateTradeAmount env db swap positionInfo = .ok r) :
    ∃ s tokenIn, swap = some s ∧ s.tokenIn = some tokenIn
      ∧ r.tokenAddress = tokenIn.address := by
  cases positionInfo with
  | none => simp [calculateTradeAmount] at h
  | some info =>
    cases swap with
    | none =>
      by_cases hentry : info.swapType = "entry"
      · simp [calculateTradeAmount, hentry, entryAmount] at h
      · cases hf : db.findById info.relatedEntrySwapId with
        | error e => simp [calculateTradeAmount, hentry, exitAmountBody, hf, originalAmount] at h
        | ok found =>
          cases found <;>
            simp [calculateTradeAmount, hentry, exitAmountBody, hf, originalAmount] at h
    | some s =>
      cases hin : s.tokenIn with
      | none =>
        by_cases hentry : info.swapType = "entry"
        · simp [calculateTradeAmount, hentry, entryAmount, hin] at h
        · cases hf : db.findById info.relatedEntrySwapId with
          | error e =>
            simp [calculateTradeAmount, hentry, exitAmountBody, hf, originalAmount, hin] at h
          | ok found =>
            cases found <;>
              simp [calculateTradeAmount, hentry, exitAmountBody, hf, originalAmount, hin] at h
      | some tokenIn =>
        refine ⟨s, tokenIn, rfl, hin, ?_⟩
        by_cases hentry : info.swapType = "entry"
        · by_cases hnative : tokenIn.symbol = "SOL" ∨ tokenIn.address = nativeAddress
          · simp [calculateTradeAmount, hentry, entryAmount, hin, hnative] at h
            rw [← h]
          · cases ho : s.tokenOut with
            | none => simp [calculateTradeAmount, hentry, entryAmount, hin, hnative, ho] at h
            | some tokenOut =>
              by_cases hpos : (parseFloat tokenOut.amount).gtZero = true
              · simp [calculateTradeAmount, hentry, entryAmount, hin, hnative, ho, hpos] at h
                rw [← h]
              · simp [calculateTradeAmount, hentry, entryAmount, hin, hnative, ho, hpos] at h
                rw [← h]
        · cases hf : db.findById info.relatedEntrySwapId with
          | error e =>
            simp [calculateTradeAmount, hentry, exitAmountBody, hf, originalAmount, hin] at h
            rw [← h]
          | ok found =>
            cases found with
            | none =>
              simp [calculateTradeAmount, hentry, exitAmountBody, hf, originalAmount, hin] at h
              rw [← h]
            | some entry =>
              simp [calculateTradeAmount, hentry, exitAmountBody, hf, hin] at h
              rw [← h]

/-- C17: whenever `calculateTradeAmount` returns, in whichever branch, the
returned `tokenAddress` is `swap.tokenIn.address`; it is the same for any other
configuration, store, classification, `tokenOut` and `usdValue` with which the
function returns on a swap with the same `tokenIn`. -/
theorem calculateTradeAmount_tokenAddress (env : Option String) (db : Store)
    (swap : Option SwapData) (positionInfo : Option PositionInfo) (r : TradeAmount)
    (h : calculateTradeAmount env db swap positionInfo = .ok r) :
    (∃ s tokenIn, swap = some s ∧ s.tokenIn = some tokenIn
      ∧ r.tokenAddress = tokenIn.address)
    ∧ (∀ (env2 : Option String) (db2 : Store) (s s2 : SwapData)
        (positionInfo2 : Option PositionInfo) (r2 : TradeAmount),
        swap = some s → s2.tokenIn = s.tokenIn →
        calculateTradeAmount env2 db2 (some s2) positionInfo2 = .ok r2 →
        r2.tokenAddress = r.tokenAddress) := by
  obtain ⟨s, tokenIn, hs, hin, haddr⟩ := tokenAddress_of_return env db swap positionInfo r h
  refine ⟨⟨s, tokenIn, hs, hin, haddr⟩, ?_⟩
  intro env2 db2 s1 s2 positionInfo2 r2 hs1 hsame h2
  obtain ⟨s3, tokenIn2, hs3, hin2, haddr2⟩ :=
    tokenAddress_of_return env2 db2 (some s2) positionInfo2 r2 h2
  rw [hs] at hs1
  cases hs1
  cases hs3
  rw [hsame, hin] at hin2
  cases hin2
  rw [haddr, haddr2]

/-- C17, on the swap that sells 350 TOKEN for SOL: the exit branch returns the
address of TOKEN (`tokenIn`), not that of SOL (`tokenOut`), and so does every
other call that returns on a swap with the same `tokenIn`, such as the exit on a
store that rejects the lookup. -/
theorem calculateTradeAmount_tokenAddress_witness :
    (∃ s tokenIn, some sellHalf = some s ∧ s.tokenIn = some tokenIn
      ∧ ({ amount := .ofNumber ((parseFloat "0.07").mul (JsNum.fin 2))
           tokenAddress := "TokenMint111" } : TradeAmount).tokenAddress = tokenIn.address)
    ∧ ∀ r2, calculateTradeAmount none unreachableStore (some sellForNothing)
        (some (exitOfFirst (some 1))) = .ok r2 → r2.tokenAddress = "TokenMint111" := by
  have h := calculateTradeAmount_tokenAddress none oneEntryStore (some sellHalf)
    (some (exitOfFirst (some 2)))
    { amount := .ofNumber ((parseFloat "0.07").mul (JsNum.fin 2))
      tokenAddress := "TokenMint111" } rfl
  exact ⟨h.1, fun r2 h2 => h.2 none unreachableStore sellHalf sellForNothing _ r2 rfl rfl h2⟩

/-! ## Further properties of `getTokenBalance` -/

/-- One iteration of the loop throws a `TypeError` on a record on which it fails,
and otherwise adds the record's contribution. -/
theorem balanceStep_char (tokenAddress : String) (balance : JsNum) (r : SwapRecord) :
    balanceStep tokenAddress balance r
      = if stepFails tokenAddress r = true then .error .typeError
        else .ok (balance.add (contribution tokenAddress r)) := by
  cases ho : r.tokenOut with
  | none => simp [balanceStep, stepFails, ho]
  | some tout =>
    by_cases h1 : tout.address = tokenAddress
    · simp [balanceStep, stepFails, ho, h1, contribution, SwapRecord.tokenOutAddress,
        SwapRecord.amountOut]
    · cases hi : r.tokenIn with
      | none => simp [balanceStep, stepFails, ho, h1, hi]
      | some tin =>
        by_cases h2 : tin.address = tokenAddress
        · simp [balanceStep, stepFails, ho, h1, hi, h2, contribution,
            SwapRecord.tokenOutAddress, SwapRecord.tokenInAddress, SwapRecord.amountIn,
            jsnum_sub_eq]
        · simp [balanceStep, stepFails, ho, h1, hi, h2, contribution,
            SwapRecord.tokenOutAddress, SwapRecord.tokenInAddress, jsnum_add_zero]

/-- The loop throws a `TypeError` when it fails on some record, and otherwise
adds up the contributions of the records. -/
theorem replay_char (tokenAddress : String) (l : List SwapRecord) :
    ∀ balance : JsNum,
      replay tokenAddress balance l
        = if l.any (stepFails tokenAddress) = true then .error .typeError
          else .ok (balance.add (JsNum.sum (l.map (contribution tokenAddress)))) := by
  induction l with
  | nil => intro balance; simp [replay, JsNum.sum, jsnum_add_zero]
  | cons r rest ih =>
    intro balance
    by_cases hr : stepFails tokenAddress r = true
    · simp [replay, balanceStep_char, hr]
    · simp [replay, balanceStep_char, hr, ih, JsNum.sum, jsnum_add_assoc]

/-- Whether some element of a list satisfies a test does not depend on the order. -/
theorem any_perm {l₁ l₂ : List SwapRecord} (p : SwapRecord → Bool) (h : l₁.Perm l₂) :
    l₁.any p = l₂.any p := by
  rw [Bool.eq_iff_iff, List.any_eq_true, List.any_eq_true]
  exact ⟨fun ⟨x, hx, hp⟩ => ⟨x, h.mem_iff.mp hx, hp⟩, fun ⟨x, hx, hp⟩ => ⟨x, h.mem_iff.mpr hx, hp⟩⟩

/-- The result of `getTokenBalance` in closed form: `"0"` when the query fails or
the loop fails on a matched record, and otherwise the rendering of the clamped sum
of the contributions of the matched records. -/
theorem getTokenBalance_char (db : Store) (walletAddress tokenAddress : String) :
    getTokenBalance db walletAddress tokenAddress
      = .ok (if db.fault.isSome = true
              ∨ (db.docs.filter (balanceFilter walletAddress tokenAddress)).any
                  (stepFails tokenAddress) = true
          then .text "0"
          else .ofNumber (JsNum.sum ((db.docs.filter
            (balanceFilter walletAddress tokenAddress)).map (contribution tokenAddress))).max0) := by
  cases hf : db.fault with
  | some e => simp [getTokenBalance, getTokenBalanceBody, Store.find, hf]
  | none =>
    have hperm := List.perm_insertionSort olderFirst
      (db.docs.filter (balanceFilter walletAddress tokenAddress))
    have hany := any_perm (stepFails tokenAddress) hperm
    have hsum := jsnum_sum_perm (hperm.map (contribution tokenAddress))
    by_cases hfail : (db.docs.filter (balanceFilter walletAddress tokenAddress)).any
        (stepFails tokenAddress) = true
    · have hfail2 := hany.trans hfail
      simp only [getTokenBalance, getTokenBalanceBody, Store.find, hf, replay_char, hfail2,
        hfail]
      simp
    · have hfail2 : ¬ ((db.docs.filter (balanceFilter walletAddress tokenAddress)).insertionSort
          olderFirst).any (stepFails tokenAddress) = true := by
        rw [hany]; exact hfail
      simp only [getTokenBalance, getTokenBalanceBody, Store.find, hf, replay_char, hfail2,
        hfail, hsum, jsnum_zero_add]
      simp

/-- C14, on a store whose only record of the token has no `tokenIn` (and 5 TOKEN
as `tokenOut`): the record is matched by the query and malformed, yet the loop does
not fail on it and the result is the rendering of 5, not `"0"`. -/
theorem getTokenBalance_malformed_counterexample :
    getTokenBalance halfRecordStore "W" "TokenMint111" = .ok (.ofNumber (.fin 5))
    ∧ ∃ r ∈ halfRecordStore.docs,
        balanceFilter "W" "TokenMint111" r = true ∧ r.tokenIn = none := by
  refine ⟨?_, plainRecord 1 100 none (some (tokenLeg "5")), by simp [halfRecordStore], rfl, rfl⟩
  rw [show getTokenBalance halfRecordStore "W" "TokenMint111"
      = .ok (.ofNumber ((JsNum.fin 0).add (parseFloat "5")).max0) from rfl, parseFloat_5]
  norm_num [JsNum.add, JsNum.max0]

/-- C14 (amended): `getTokenBalance` returns for every store, wallet and token,
and it returns exactly `"0"` when the query fails or some record matched by the
query has no `tokenOut`. -/
theorem getTokenBalance_fallback (db : Store) (walletAddress tokenAddress : String) :
    (∃ s, getTokenBalance db walletAddress tokenAddress = .ok s)
    ∧ ((db.fault ≠ none
          ∨ ∃ r ∈ db.docs, balanceFilter walletAddress tokenAddress r = true
              ∧ r.tokenOut = none) →
        getTokenBalance db walletAddress tokenAddress = .ok (.text "0")) := by
  refine ⟨⟨_, getTokenBalance_char db walletAddress tokenAddress⟩, fun h => ?_⟩
  rw [getTokenBalance_char]
  have hcond : db.fault.isSome = true
      ∨ (db.docs.filter (balanceFilter walletAddress tokenAddress)).any
          (stepFails tokenAddress) = true := by
    rcases h with hf | ⟨r, hr, hmatch, hout⟩
    · exact Or.inl (Option.isSome_iff_ne_none.mpr hf)
    · exact Or.inr (List.any_eq_true.mpr
        ⟨r, List.mem_filter.mpr ⟨hr, hmatch⟩, by simp [stepFails, hout]⟩)
  rw [if_pos hcond]

/-- C14 (amended), on a store that rejects the query and on a store with a
disposal whose record has no `tokenOut`: both give `"0"`. -/
theorem getTokenBalance_fallback_witness :
    getTokenBalance unreachableStore "W" "TokenMint111" = .ok (.text "0")
    ∧ getTokenBalance missingLegStore "W" "TokenMint111" = .ok (.text "0") :=
  ⟨(getTokenBalance_fallback unreachableStore "W" "TokenMint111").2 (Or.inl (by decide)),
    (getTokenBalance_fallback missingLegStore "W" "TokenMint111").2
      (Or.inr ⟨plainRecord 2 200 (some (tokenLeg "3")) none, by simp [missingLegStore],
        rfl, rfl⟩)⟩

/-- The balance is the same for two stores that hold the same records in
different orders. -/
theorem balance_perm (fault : Option JsError) (walletAddress tokenAddress : String)
    {l₁ l₂ : List SwapRecord} (h : l₁.Perm l₂) :
    getTokenBalance { docs := l₁, fault := fault } walletAddress tokenAddress
      = getTokenBalance { docs := l₂, fault := fault } walletAddress tokenAddress := by
  have hf := h.filter (balanceFilter walletAddress tokenAddress)
  rw [getTokenBalance_char, getTokenBalance_char]
  simp only [any_perm (stepFails tokenAddress) hf,
    jsnum_sum_perm (hf.map (contribution tokenAddress))]

/-- The balance does not read the timestamps of the records. -/
theorem balance_withoutTime (fault : Option JsError) (walletAddress tokenAddress : String)
    (l : List SwapRecord) :
    getTokenBalance { docs := l.map withoutTime, fault := fault } walletAddress tokenAddress
      = getTokenBalance { docs := l, fault := fault } walletAddress tokenAddress := by
  have h1 : (balanceFilter walletAddress tokenAddress) ∘ withoutTime
      = balanceFilter walletAddress tokenAddress := rfl
  have h2 : (stepFails tokenAddress) ∘ withoutTime = stepFails tokenAddress := rfl
  have h3 : (contribution tokenAddress) ∘ withoutTime = contribution tokenAddress := rfl
  rw [getTokenBalance_char, getTokenBalance_char]
  simp only [List.filter_map, List.any_map, List.map_map, h1, h2, h3]

/-- C18: the balance does not depend on the order of the records. Two stores
whose record lists are permutations of each other give the same balance, and so do
two stores whose records agree up to their order and their timestamps, the order
in which the loop visits them; no record needs to be well formed for this. -/
theorem getTokenBalance_order_independent (fault : Option JsError)
    (walletAddress tokenAddress : String) (l₁ l₂ : List SwapRecord) :
    (l₁.Perm l₂ →
      getTokenBalance { docs := l₁, fault := fault } walletAddress tokenAddress
        = getTokenBalance { docs := l₂, fault := fault } walletAddress tokenAddress)
    ∧ ((l₁.map withoutTime).Perm (l₂.map withoutTime) →
      getTokenBalance { docs := l₁, fault := fault } walletAddress tokenAddress
        = getTokenBalance { docs := l₂, fault := fault } walletAddress tokenAddress) := by
  refine ⟨balance_perm fault walletAddress tokenAddress, fun h => ?_⟩
  rw [← balance_withoutTime fault walletAddress tokenAddress l₁,
    ← balance_withoutTime fault walletAddress tokenAddress l₂]
  exact balance_perm fault walletAddress tokenAddress h

/-- C18, on a sale of 350 TOKEN and a purchase of 5 TOKEN: with the sale first
the balance is `max(0, 5 - 350) = 0` (clamping after each record would give 5), and
it is the same with the records stored and dated in the other order. -/
theorem getTokenBalance_order_independent_witness :
    getTokenBalance { docs := earlySale, fault := none } "W" "TokenMint111"
      = .ok (.ofNumber (.fin 0))
    ∧ getTokenBalance { docs := earlySale, fault := none } "W" "TokenMint111"
      = getTokenBalance { docs := earlySale.reverse, fault := none } "W" "TokenMint111"
    ∧ getTokenBalance { docs := earlySale, fault := none } "W" "TokenMint111"
      = getTokenBalance { docs := lateSale, fault := none } "W" "TokenMint111" := by
  refine ⟨?_, ?_, ?_⟩
  · rw [show getTokenBalance { docs := earlySale, fault := none } "W" "TokenMint111"
        = .ok (.ofNumber (((JsNum.fin 0).sub (parseFloat "350")).add (parseFloat "5")).max0)
        from rfl, parseFloat_5, parseFloat_350]
    norm_num [JsNum.add, JsNum.sub, JsNum.max0]
  · exact (getTokenBalance_order_independent none "W" "TokenMint111" earlySale
      earlySale.reverse).1 (List.reverse_perm earlySale).symm
  · exact (getTokenBalance_order_independent none "W" "TokenMint111" earlySale lateSale).2
      (by decide)

/-- The sum of two lists put end to end is the sum of their sums. -/
theorem jsnum_sum_append (l₁ l₂ : List JsNum) :
    JsNum.sum (l₁ ++ l₂) = (JsNum.sum l₁).add (JsNum.sum l₂) := by
  induction l₁ with
  | nil => simp [JsNum.sum, jsnum_zero_add]
  | cons x rest ih => simp [JsNum.sum, ih, jsnum_add_assoc]

/-- Adding a number that is at least zero to a number that is at least zero
gives a number that is at least zero and not smaller than the first. -/
theorem add_nonneg_le (x y : JsNum) (hx : x.isNonNeg = true) (hy : y.isNonNeg = true) :
    (x.add y).isNonNeg = true ∧ x.le (x.add y) = true := by
  cases x <;> cases y <;> simp_all [JsNum.isNonNeg, JsNum.add, JsNum.le]
  exact add_nonneg hx hy

/-- A sum of numbers that are at least zero is at least zero. -/
theorem sum_nonneg (l : List JsNum) (h : ∀ x ∈ l, x.isNonNeg = true) :
    (JsNum.sum l).isNonNeg = true := by
  induction l with
  | nil => simp [JsNum.sum, JsNum.isNonNeg]
  | cons x rest ih =>
    exact (add_nonneg_le x (JsNum.sum rest) (h x (List.mem_cons_self x rest))
      (ih (fun y hy => h y (List.mem_cons_of_mem x hy)))).1

/-- The clamp leaves a number that is at least zero unchanged. -/
theorem max0_of_nonneg (x : JsNum) (h : x.isNonNeg = true) : x.max0 = x := by
  cases x <;> simp_all [JsNum.isNonNeg, JsNum.max0]

/-- In a pure-acquisition history the loop fails on no matched record and every
matched record contributes a number that is at least zero. -/
theorem pure_contributions (walletAddress tokenAddress : String) (docs : List SwapRecord)
    (h : pureAcquisitions walletAddress tokenAddress docs = true) :
    (docs.filter (balanceFilter walletAddress tokenAddress)).any (stepFails tokenAddress) = false
    ∧ ∀ x ∈ (docs.filter (balanceFilter walletAddress tokenAddress)).map
        (contribution tokenAddress), x.isNonNeg = true := by
  have hall : ∀ r ∈ docs.filter (balanceFilter walletAddress tokenAddress),
      acquires walletAddress tokenAddress r = true ∧ r.amountOut.isNonNeg = true := by
    intro r hr
    obtain ⟨hdoc, hmatch⟩ := List.mem_filter.mp hr
    have := List.all_eq_true.mp h r hdoc
    simpa [hmatch] using this
  constructor
  · rw [Bool.eq_false_iff]
    intro hany
    obtain ⟨r, hr, hfail⟩ := List.any_eq_true.mp hany
    have hacq := (hall r hr).1
    simp only [acquires, Bool.and_eq_true, beq_iff_eq, SwapRecord.tokenOutAddress] at hacq
    cases ho : r.tokenOut with
    | none => simp [ho] at hacq
    | some t =>
      have haddr : t.address = tokenAddress := by simpa [ho] using hacq.2
      simp [stepFails, ho, haddr] at hfail
  · intro x hx
    obtain ⟨r, hr, rfl⟩ := List.mem_map.mp hx
    rw [contribution_of_acquires walletAddress tokenAddress r (hall r hr).1]
    exact (hall r hr).2

/-- C11: in a pure-acquisition history the balance is monotonic. When `history`
followed by `more` is such a history (in particular when `more` is one further
acquisition, and for every prefix `history` of a whole history), the balance of
`history` is less than or equal to the balance of `history ++ more`. -/
theorem getTokenBalance_monotone (fault : Option JsError) (walletAddress tokenAddress : String)
    (history more : List SwapRecord)
    (hpure : pureAcquisitions walletAddress tokenAddress (history ++ more) = true) :
    ∃ s₁ s₂,
      getTokenBalance { docs := history, fault := fault } walletAddress tokenAddress = .ok s₁
      ∧ getTokenBalance { docs := history ++ more, fault := fault } walletAddress tokenAddress
          = .ok s₂
      ∧ s₁.value.le s₂.value = true := by
  cases fault with
  | some e =>
    refine ⟨.text "0", .text "0", by simp [getTokenBalance_char],
      by simp [getTokenBalance_char], ?_⟩
    simp [JsString.value, parseFloat_0, JsNum.le]
  | none =>
    have hsplit : pureAcquisitions walletAddress tokenAddress history = true
        ∧ pureAcquisitions walletAddress tokenAddress more = true := by
      simpa [pureAcquisitions, List.all_append] using hpure
    obtain ⟨hok1, hnn1⟩ := pure_contributions walletAddress tokenAddress history hsplit.1
    obtain ⟨hok2, hnn2⟩ := pure_contributions walletAddress tokenAddress more hsplit.2
    obtain ⟨hok, _⟩ := pure_contributions walletAddress tokenAddress (history ++ more) hpure
    rw [List.filter_append] at hok
    have hs1 := sum_nonneg _ hnn1
    have hs2 := sum_nonneg _ hnn2
    have hadd := add_nonneg_le _ _ hs1 hs2
    refine ⟨_, _, getTokenBalance_char _ walletAddress tokenAddress,
      getTokenBalance_char _ walletAddress tokenAddress, ?_⟩
    simp only [Option.isSome_none, Bool.false_eq_true, false_or, hok1, hok, if_false,
      JsString.value, List.filter_append, List.map_append, jsnum_sum_append,
      max0_of_nonneg _ hs1, max0_of_nonneg _ hadd.1]
    exact hadd.2

/-- C11, on a purchase of 5 TOKEN extended by a purchase of 3 TOKEN: the
balances are 5 and 8, and the first is less than or equal to the second. -/
theorem getTokenBalance_monotone_witness :
    (∃ s₁ s₂,
      getTokenBalance { docs := firstBuy, fault := none } "W" "TokenMint111" = .ok s₁
      ∧ getTokenBalance { docs := firstBuy ++ [secondBuy], fault := none } "W" "TokenMint111"
          = .ok s₂
      ∧ s₁.value.le s₂.value = true)
    ∧ getTokenBalance { docs := firstBuy, fault := none } "W" "TokenMint111"
        = .ok (.ofNumber (.fin 5))
    ∧ getTokenBalance { docs := firstBuy ++ [secondBuy], fault := none } "W" "TokenMint111"
        = .ok (.ofNumber (.fin 8)) := by
  refine ⟨getTokenBalance_monotone none "W" "TokenMint111" firstBuy [secondBuy] ?_, ?_, ?_⟩
  · simp [pureAcquisitions, firstBuy, secondBuy, plainRecord, balanceFilter, acquires,
      SwapRecord.tokenInAddress, SwapRecord.tokenOutAddress, SwapRecord.amountOut, solLeg,
      tokenLeg, nativeAddress, parseFloat_5, parseFloat_3, JsNum.isNonNeg]
  · rw [show getTokenBalance { docs := firstBuy, fault := none } "W" "TokenMint111"
        = .ok (.ofNumber ((JsNum.fin 0).add (parseFloat "5")).max0) from rfl, parseFloat_5]
    norm_num [JsNum.add, JsNum.max0]
  · rw [show getTokenBalance { docs := firstBuy ++ [secondBuy], fault := none } "W"
          "TokenMint111"
        = .ok (.ofNumber (((JsNum.fin 0).add (parseFloat "5")).add (parseFloat "3")).max0)
        from rfl, parseFloat_5, parseFloat_3]
    norm_num [JsNum.add, JsNum.max0]

/-! ## Properties in IEEE 754 double arithmetic -/

/-- Rounding to a double never gives `NaN`. -/
theorem ieee_round_ne_nan (q : ℚ) : Ieee.round q ≠ JsNum.nan := by
  unfold Ieee.round
  dsimp only
  split_ifs <;> simp

/-- A rounded number is falsy exactly when it is zero. -/
theorem ieee_isFalsy_round (q : ℚ) :
    Ieee.isFalsy (Ieee.round q) = true ↔ Ieee.round q = JsNum.fin 0 := by
  have hn := ieee_round_ne_nan q
  cases h : Ieee.round q with
  | nan => exact absurd h hn
  | negInf => simp [Ieee.isFalsy]
  | fin r => simp [Ieee.isFalsy]
  | posInf => simp [Ieee.isFalsy]

/-- For a numeric field, `field || 0` is the double of the field, and `0` when
the field is absent. -/
theorem ieee_numberOr_zero (field : Option ℚ) :
    Ieee.numberOr field (JsNum.fin 0) = (field.map Ieee.round).getD (JsNum.fin 0) := by
  cases field with
  | none => rfl
  | some q =>
    by_cases hf : Ieee.isFalsy (Ieee.round q) = true
    · simp [Ieee.numberOr, hf, (ieee_isFalsy_round q).mp hf]
    · simp [Ieee.numberOr, hf]

/-- C1: when the query answers and exactly one stored record is eligible for the
wallet and the token being sold, and its `usdValue` is greater than zero, the swap
is classified as an exit of that record, and the ratio is the JavaScript quotient
`swap.usdValue / entry.usdValue` of the two doubles, an absent `swap.usdValue`
counting as `0`. -/
theorem ieee_detectSwapType_single_entry (db : Store) (walletAddress : String)
    (swap : SwapData) (tokenBeingSold : Token) (entry : SwapRecord) (u : ℚ)
    (hq : db.fault = none) (hin : swap.tokenIn = some tokenBeingSold)
    (hone : db.docs.filter (entryFilter walletAddress tokenBeingSold.address) = [entry])
    (hu : entry.usdValue = some u) (hpos : (Ieee.round u).gtZero = true) :
    Ieee.detectSwapType db (some swap) walletAddress
      = .ok { swapType := "exit"
              relatedEntrySwapId := some entry._id
              exitRatio := some (Ieee.div ((swap.usdValue.map Ieee.round).getD (JsNum.fin 0))
                (Ieee.round u)) } := by
  have hentry : Ieee.numberOr (some u) (JsNum.fin 0) = Ieee.round u := by
    rw [ieee_numberOr_zero]; rfl
  simp [Ieee.detectSwapType, Ieee.detectSwapTypeBody, hin, Store.find_of_reachable db _ hq,
    hone, Ieee.exitRatioOf, hu, hentry, hpos, ieee_numberOr_zero]

/-- C1, on the scenario of section 8 and on a second store: an entry worth 10
and a swap worth 6 give the double `0.6`; an entry worth 3 and a swap worth 1 give
the double nearest to one third, `0.3333333333333333`. -/
theorem ieee_detectSwapType_single_entry_witness :
    Ieee.detectSwapType oneEntryStore (some sellHalf) "W"
      = .ok { swapType := "exit", relatedEntrySwapId := some 1
              exitRatio := some (Ieee.parseFloat "0.6") }
    ∧ Ieee.detectSwapType { docs := [entryRecord 1 100 "0.07" "700" (some 3)], fault := none }
        (some { sellHalf with usdValue := some 1 }) "W"
      = .ok { swapType := "exit", relatedEntrySwapId := some 1
              exitRatio := some (.fin (6004799503160661 / 18014398509481984)) } :=
  ⟨(ieee_detectSwapType_single_entry oneEntryStore "W" sellHalf (tokenLeg "350")
      (entryRecord 1 100 "0.07" "700" (some 10)) 10 rfl rfl (by decide) rfl
      (by decide!)).trans (by decide!),
    (ieee_detectSwapType_single_entry
      { docs := [entryRecord 1 100 "0.07" "700" (some 3)], fault := none } "W"
      { sellHalf with usdValue := some 1 } (tokenLeg "350")
      (entryRecord 1 100 "0.07" "700" (some 3)) 3 rfl rfl (by decide) rfl
      (by decide!)).trans (by decide!)⟩

/-- C6: for an entry whose `tokenIn` is not the native asset, a `tokenOut.amount`
that parses to a number greater than zero gives the rendering of the JavaScript
value `fixedAmount * (tokenIn.amount / tokenOut.amount)`, computed on doubles; a
`tokenOut.amount` that does not (it parses to zero, to a negative number or to no
number) gives `swap.tokenIn.amount`, the original string. -/
theorem ieee_calculateTradeAmount_token_entry (env : Option String) (db : Store)
    (swap : SwapData) (tokenIn tokenOut : Token) (positionInfo : Ieee.PositionInfo)
    (hin : swap.tokenIn = some tokenIn) (hout : swap.tokenOut = some tokenOut)
    (hnot : ¬ (tokenIn.symbol = "SOL" ∨ tokenIn.address = nativeAddress))
    (hentry : positionInfo.swapType = "entry") :
    ((Ieee.parseFloat tokenOut.amount).gtZero = true →
      Ieee.calculateTradeAmount env db (some swap) (some positionInfo)
        = .ok { amount := .ofNumber (Ieee.mul (Ieee.parseFloat (fixedSolAmount env))
                  (Ieee.div (Ieee.parseFloat tokenIn.amount) (Ieee.parseFloat tokenOut.amount)))
                tokenAddress := tokenIn.address })
    ∧ ((Ieee.parseFloat tokenOut.amount).gtZero = false →
      Ieee.calculateTradeAmount env db (some swap) (some positionInfo)
        = .ok { amount := .text tokenIn.amount, tokenAddress := tokenIn.address })
    ∧ (∀ b : ℚ, Ieee.parseFloat tokenOut.amount = .fin b → b ≤ 0 →
      Ieee.calculateTradeAmount env db (some swap) (some positionInfo)
        = .ok { amount := .text tokenIn.amount, tokenAddress := tokenIn.address }) := by
  refine ⟨fun hpos => ?_, fun hneg => ?_, fun b hb hle => ?_⟩
  · simp [Ieee.calculateTradeAmount, hentry, Ieee.entryAmount, hin, hout, hnot, hpos]
  · simp [Ieee.calculateTradeAmount, hentry, Ieee.entryAmount, hin, hout, hnot, hneg]
  · have hng : ¬ 0 < b := not_lt.mpr hle
    simp [Ieee.calculateTradeAmount, hentry, Ieee.entryAmount, hin, hout, hnot, hb,
      JsNum.gtZero, hng]

/-- C6, on three swaps that sell 350 TOKEN with `"0.07"` configured: for 0.04
SOL the amount is the double `0.07 * (350 / 0.04) = 612.5000000000001`; for a SOL
amount of `"0"` it is `"350"`; and for `"1e-400"`, which parses to zero, it is
`"350"` as well. -/
theorem ieee_calculateTradeAmount_token_entry_witness :
    Ieee.calculateTradeAmount none oneEntryStore (some sellHalf) (some Ieee.entryResult)
      = .ok { amount := .ofNumber (.fin (5387606976102401 / 8796093022208))
              tokenAddress := "TokenMint111" }
    ∧ Ieee.calculateTradeAmount none oneEntryStore (some sellForNothing)
        (some Ieee.entryResult)
      = .ok { amount := .text "350", tokenAddress := "TokenMint111" }
    ∧ Ieee.calculateTradeAmount none oneEntryStore (some sellForDust) (some Ieee.entryResult)
      = .ok { amount := .text "350", tokenAddress := "TokenMint111" } :=
  ⟨((ieee_calculateTradeAmount_token_entry none oneEntryStore sellHalf (tokenLeg "350")
      (solLeg "0.04") Ieee.entryResult rfl rfl (by decide) rfl).1 (by decide!)).trans
      (by decide!),
    (ieee_calculateTradeAmount_token_entry none oneEntryStore sellForNothing (tokenLeg "350")
      (solLeg "0") Ieee.entryResult rfl rfl (by decide) rfl).2.2 0 (by decide!) (le_refl 0),
    (ieee_calculateTradeAmount_token_entry none oneEntryStore sellForDust (tokenLeg "350")
      (solLeg "1e-400") Ieee.entryResult rfl rfl (by decide) rfl).2.1 (by decide!)⟩

/-- C4, evaluated in doubles on two exits against the scenario of section 8
(configured amount `"0.07"`). With no recorded position value and ratio `0` the
code returns the rendering of `0.07`, where applying the ratio gives `0.07 * 0 = 0`;
with a recorded position value of `0` and ratio `2` it returns the rendering of
`0.14`, where `0 * 2 = 0`. -/
theorem ieee_exit_amount_zero :
    (Ieee.calculateTradeAmount none oneEntryStore (some sellHalf)
        (some (Ieee.exitOfFirst (some (.fin 0))))
        = .ok { amount := .ofNumber (Ieee.parseFloat "0.07"), tokenAddress := "TokenMint111" }
      ∧ Ieee.claimedExitAmount "0.07" none (some (.fin 0)) = .fin 0)
    ∧ (Ieee.calculateTradeAmount none zeroPositionStore (some sellHalf)
        (some (Ieee.exitOfFirst (some (.fin 2))))
        = .ok { amount := .ofNumber (Ieee.parseFloat "0.14"), tokenAddress := "TokenMint111" }
      ∧ Ieee.claimedExitAmount "0.07" (some 0) (some (.fin 2)) = .fin 0) := by
  refine ⟨⟨?_, ?_⟩, ⟨?_, ?_⟩⟩ <;> decide!

/-- C16, evaluated in doubles on the scenario of section 8 (configured amount
`"0.07"`, entry worth 10) with a swap worth `0` and with a swap without
`usdValue`: the classification is an exit with ratio `0`, and the calculation
returns the rendering of `0.07`, where `0.07 * 0 / 10 = 0`. -/
theorem ieee_mirror_zero_value :
    (Ieee.detectSwapType oneEntryStore (some sellForNoValue) "W"
        = .ok (Ieee.exitOfFirst (some (.fin 0)))
      ∧ Ieee.calculateTradeAmount none oneEntryStore (some sellForNoValue)
          (some (Ieee.exitOfFirst (some (.fin 0))))
        = .ok { amount := .ofNumber (Ieee.parseFloat "0.07"), tokenAddress := "TokenMint111" }
      ∧ Ieee.claimedMirrorAmount "0.07" (some 0) 10 = .fin 0)
    ∧ (Ieee.detectSwapType oneEntryStore (some sellForNothing) "W"
        = .ok (Ieee.exitOfFirst (some (.fin 0)))
      ∧ Ieee.calculateTradeAmount none oneEntryStore (some sellForNothing)
          (some (Ieee.exitOfFirst (some (.fin 0))))
        = .ok { amount := .ofNumber (Ieee.parseFloat "0.07"), tokenAddress := "TokenMint111" }
      ∧ Ieee.claimedMirrorAmount "0.07" none 10 = .fin 0) := by
  refine ⟨⟨?_, ?_, ?_⟩, ⟨?_, ?_, ?_⟩⟩ <;> decide!

/-! ### The balance in doubles -/

/-- Adding a finite number to a number gives a number. -/
theorem ieee_add_number (x y : JsNum) (hx : x ≠ JsNum.nan) (hy : y.isFinite = true) :
    Ieee.add x y ≠ JsNum.nan := by
  cases x <;> cases y <;>
    simp_all [Ieee.add, JsNum.add, JsNum.isFinite, ieee_round_ne_nan]

/-- Subtracting a finite number from a number gives a number. -/
theorem ieee_sub_number (x y : JsNum) (hx : x ≠ JsNum.nan) (hy : y.isFinite = true) :
    Ieee.sub x y ≠ JsNum.nan := by
  cases x <;> cases y <;>
    simp_all [Ieee.sub, JsNum.sub, JsNum.isFinite, ieee_round_ne_nan]

/-- One iteration of the loop keeps the balance a number when the amounts of the
record parse to finite doubles. -/
theorem ieee_balanceStep_number (tokenAddress : String) (balance b : JsNum) (r : SwapRecord)
    (hb : balance ≠ JsNum.nan)
    (hfin : Ieee.legFinite r.tokenIn = true ∧ Ieee.legFinite r.tokenOut = true)
    (h : Ieee.balanceStep tokenAddress balance r = .ok b) : b ≠ JsNum.nan := by
  cases ho : r.tokenOut with
  | none => simp [Ieee.balanceStep, ho] at h
  | some tout =>
    have hout : (Ieee.parseFloat tout.amount).isFinite = true := by
      simpa [Ieee.legFinite, ho] using hfin.2
    by_cases h1 : tout.address = tokenAddress
    · simp [Ieee.balanceStep, ho, h1] at h
      rw [← h]
      exact ieee_add_number _ _ hb hout
    · cases hi : r.tokenIn with
      | none => simp [Ieee.balanceStep, ho, h1, hi] at h
      | some tin =>
        have hinf : (Ieee.parseFloat tin.amount).isFinite = true := by
          simpa [Ieee.legFinite, hi] using hfin.1
        by_cases h2 : tin.address = tokenAddress
        · simp [Ieee.balanceStep, ho, h1, hi, h2] at h
          rw [← h]
          exact ieee_sub_number _ _ hb hinf
        · simp [Ieee.balanceStep, ho, h1, hi, h2] at h
          rw [← h]
          exact hb

/-- The loop keeps the balance a number when the amounts of the records parse to
finite doubles. -/
theorem ieee_replay_number (tokenAddress : String) (l : List SwapRecord)
    (hfin : ∀ r ∈ l, Ieee.legFinite r.tokenIn = true ∧ Ieee.legFinite r.tokenOut = true) :
    ∀ (balance b : JsNum), balance ≠ JsNum.nan →
      Ieee.replay tokenAddress balance l = .ok b → b ≠ JsNum.nan := by
  induction l with
  | nil =>
    intro balance b hb h
    simp [Ieee.replay] at h
    rw [← h]
    exact hb
  | cons r rest ih =>
    intro balance b hb h
    cases hs : Ieee.balanceStep tokenAddress balance r with
    | error e => simp [Ieee.replay, hs] at h
    | ok b2 =>
      have hb2 := ieee_balanceStep_number tokenAddress balance b2 r hb
        (hfin r (List.mem_cons_self r rest)) hs
      simp [Ieee.replay, hs] at h
      exact ih (fun x hx => hfin x (List.mem_cons_of_mem r hx)) b2 b hb2 h

/-- The clamp `Math.max(0, x)` gives `NaN` or a number that is at least zero, and
the latter whenever `x` is a number. -/
theorem ieee_max0_cases (x : JsNum) :
    (x.max0 = JsNum.nan ∨ x.max0.isNonNeg = true)
    ∧ (x ≠ JsNum.nan → x.max0.isNonNeg = true) := by
  cases x <;> simp [JsNum.max0, JsNum.isNonNeg]

/-- C10, on a purchase whose amount is the string `"abc"` and on a purchase and a
sale of `"1e400"`: in both stores the balance is the rendering of `NaN`, which is
not a number greater than or equal to zero. -/
theorem ieee_getTokenBalance_nan_counterexample :
    Ieee.getTokenBalance unreadableAmountStore "W" "TokenMint111" = .ok (.ofNumber .nan)
    ∧ Ieee.getTokenBalance overflowStore "W" "TokenMint111" = .ok (.ofNumber .nan)
    ∧ (Ieee.valueOf (.ofNumber .nan)).isNonNeg = false := by
  refine ⟨?_, ?_, ?_⟩ <;> decide!

/-- C10 (amended): `getTokenBalance` always returns a string, and the number it
denotes is never negative, whatever the store holds, in whatever order, and whether
or not the query answers: it is `NaN` or a number greater than or equal to zero,
and it is a number greater than or equal to zero whenever every amount of the
stored records parses to a finite number. Computed in doubles. -/
theorem ieee_getTokenBalance_nonneg (db : Store) (walletAddress tokenAddress : String) :
    ∃ s, Ieee.getTokenBalance db walletAddress tokenAddress = .ok s
      ∧ (Ieee.valueOf s).isNegative = false
      ∧ (Ieee.valueOf s = JsNum.nan ∨ (Ieee.valueOf s).isNonNeg = true)
      ∧ (Ieee.finiteAmounts db.docs = true → (Ieee.valueOf s).isNonNeg = true) := by
  have hzero : Ieee.valueOf (JsString.text "0") = JsNum.fin 0 := by decide!
  have htext : (Ieee.valueOf (JsString.text "0")).isNegative = false
      ∧ (Ieee.valueOf (JsString.text "0") = JsNum.nan
          ∨ (Ieee.valueOf (JsString.text "0")).isNonNeg = true)
      ∧ (Ieee.finiteAmounts db.docs = true →
          (Ieee.valueOf (JsString.text "0")).isNonNeg = true) := by
    rw [hzero]
    simp [JsNum.isNegative, JsNum.isNonNeg]
  cases hf : db.fault with
  | some e =>
    exact ⟨.text "0",
      by simp [Ieee.getTokenBalance, Ieee.getTokenBalanceBody, Store.find, hf], htext⟩
  | none =>
    cases hr : Ieee.replay tokenAddress (JsNum.fin 0)
        ((db.docs.filter (balanceFilter walletAddress tokenAddress)).insertionSort olderFirst) with
    | error e =>
      exact ⟨.text "0",
        by simp [Ieee.getTokenBalance, Ieee.getTokenBalanceBody, Store.find, hf, hr], htext⟩
    | ok b =>
      refine ⟨.ofNumber b.max0,
        by simp [Ieee.getTokenBalance, Ieee.getTokenBalanceBody, Store.find, hf, hr], ?_, ?_, ?_⟩
      · cases b <;> simp [Ieee.valueOf, JsNum.max0, JsNum.isNegative]
      · exact (ieee_max0_cases b).1
      · intro hfin
        have hlegs : ∀ r ∈ (db.docs.filter
            (balanceFilter walletAddress tokenAddress)).insertionSort olderFirst,
            Ieee.legFinite r.tokenIn = true ∧ Ieee.legFinite r.tokenOut = true := by
          intro r hr2
          have hmem := (List.perm_insertionSort olderFirst _).mem_iff.mp hr2
          have hall := List.all_eq_true.mp hfin r (List.mem_filter.mp hmem).1
          simpa [Bool.and_eq_true] using hall
        have hb := ieee_replay_number tokenAddress _ hlegs (JsNum.fin 0) b (by simp) hr
        exact (ieee_max0_cases b).2 hb

/-- C10 (amended), on an acquisition of 5 followed by a disposal of 350: the
amounts parse to finite numbers, the balance is a number that is at least zero,
and it is `0`. -/
theorem ieee_getTokenBalance_nonneg_witness :
    Ieee.finiteAmounts oversoldStore.docs = true
    ∧ (∃ s, Ieee.getTokenBalance oversoldStore "W" "TokenMint111" = .ok s
        ∧ (Ieee.valueOf s).isNegative = false ∧ (Ieee.valueOf s).isNonNeg = true)
    ∧ Ieee.getTokenBalance oversoldStore "W" "TokenMint111" = .ok (.ofNumber (.fin 0)) := by
  have hfin : Ieee.finiteAmounts oversoldStore.docs = true := by decide!
  refine ⟨hfin, ?_, by decide!⟩
  obtain ⟨s, hs, hneg, _, hnonneg⟩ :=
    ieee_getTokenBalance_nonneg oversoldStore "W" "TokenMint111"
  exact ⟨s, hs, hneg, hnonneg hfin⟩

end PositionTracker
